import Mathlib

/-!
Shallow embedding of the core of the Dove tree-walking interpreter
(dove-core/src/interpreter.rs, dove_callable.rs, environment.rs,
resolver.rs, data_types/dict.rs, token.rs), for checking the
natural-language specification against the code.

Modelling conventions, chosen once and used throughout:

* Rust f64 payloads are modelled by unnormalized integer fractions
  (structure F64 below).  Every numeric value the claims exercise
  (integer-valued literals, halves such as 2.5) is exactly representable
  in f64, so exact fraction arithmetic coincides with f64 arithmetic on
  them.  NaN, infinities and rounding are not modelled; no claim settled
  here depends on division by zero or on inexact f64 rounding.
  f64 equality and ordering are value comparisons, mirrored by
  cross-multiplication on fractions.
* Rust saturating float-to-integer casts (expr as i32 / isize / usize)
  are modelled exactly: truncation toward zero, then clamping to the
  target range (NaN inputs cannot arise in the fragment).  i32 overflow
  in arithmetic is modelled as two's-complement wrap-around, the release
  build behaviour of the shipped interpreter.
* Rc<RefCell<Environment>> sharing is modelled with an explicit heap of
  environment frames indexed by Nat, and Rc<DoveFunction> with a heap of
  function definitions; Literals.function carries the heap index.
  Array and Dictionary aggregates are modelled by value (inline lists):
  no claim settled in this file observes aggregate aliasing.
* Class and Instance machinery (dove_class.rs, Get/Set/Self/Super) is
  outside the fragment the claims exercise; the embedding covers the
  class-free sublanguage.  In is_equal, the catch-all panic arm of the
  source then covers exactly the Function variant.
* The Rust evaluator has no fuel; the embedding threads a fuel counter
  that every call consumes one unit of, so recursion is structural.
  EvalRes.oom marks fuel exhaustion (a divergence artifact, never
  identified with any program behaviour); EvalRes.panic models a host
  process panic (.unwrap() on an Err, or an explicit panic!).
-/

namespace Dove

/-- Exact-fraction model of Rust f64: an unnormalized fraction with
positive denominator. All constructors below keep den positive. -/
structure F64 where
  num : Int
  den : Int
deriving Repr, DecidableEq

/-- Embed an integer as an f64 value (exact for the magnitudes used here). -/
def F64.ofInt (n : Int) : F64 := ⟨n, 1⟩

instance : OfNat F64 n := ⟨F64.ofInt n⟩

/-- Value equality of two f64 numbers (Rust ==): cross multiplication. -/
def F64.beq (a b : F64) : Bool := a.num * b.den == b.num * a.den

def F64.lt (a b : F64) : Bool := a.num * b.den < b.num * a.den
def F64.le (a b : F64) : Bool := a.num * b.den ≤ b.num * a.den

def F64.add (a b : F64) : F64 := ⟨a.num * b.den + b.num * a.den, a.den * b.den⟩
def F64.sub (a b : F64) : F64 := ⟨a.num * b.den - b.num * a.den, a.den * b.den⟩
def F64.mul (a b : F64) : F64 := ⟨a.num * b.num, a.den * b.den⟩
def F64.neg (a : F64) : F64 := ⟨-a.num, a.den⟩

/-- Division, keeping the denominator positive.  f64 division by zero
(inf/NaN results) is not modelled; no claim depends on it. -/
def F64.div (a b : F64) : F64 :=
  if b.num < 0 then ⟨-(a.num * b.den), -(a.den * b.num)⟩
  else ⟨a.num * b.den, a.den * b.num⟩

/-- Truncation toward zero (Rust self.trunc(), and the integral part used
by float-to-int casts). Int.tdiv rounds toward zero. -/
def F64.trunc (a : F64) : Int := a.num.tdiv a.den

/-- Rust f64::fract(): self minus its truncation toward zero. -/
def F64.fract (a : F64) : F64 := a.sub (F64.ofInt a.trunc)

/-- Rust % on f64: remainder with the sign of the dividend. -/
def F64.rem (a b : F64) : F64 := a.sub (b.mul (F64.ofInt ((a.div b).trunc)))

/-- Rust f64::floor() of a fraction, as an integer value. -/
def F64.floorF (a : F64) : F64 := F64.ofInt (a.num.fdiv a.den)

/-- Rust f64::ceil() of a fraction, as an integer value. -/
def F64.ceilF (a : F64) : F64 := F64.ofInt (-((-a.num).fdiv a.den))

/-- Saturating cast f64 as i32 (Rust semantics: truncate toward zero,
clamp to the i32 range). -/
def i32cast (a : F64) : Int := max (-(2 ^ 31)) (min (2 ^ 31 - 1) a.trunc)

/-- Saturating cast f64 as isize on a 64-bit host. -/
def isizeCast (a : F64) : Int := max (-(2 ^ 63)) (min (2 ^ 63 - 1) a.trunc)

/-- Saturating cast f64 as usize on a 64-bit host. -/
def usizeCast (a : F64) : Nat := (min (2 ^ 64 - 1) a.trunc).toNat

/-- Two's-complement wrap-around into the i32 range: release-build
behaviour of overflowing i32 arithmetic. -/
def wrap32 (n : Int) : Int := (n + 2 ^ 31) % 2 ^ 32 - 2 ^ 31

/-- i32::abs with the release wrap-around on i32::MIN. -/
def absWrap32 (n : Int) : Int := if n == -(2 ^ 31) then n else n.natAbs

/-- Token categories (token.rs TokenType, complete set). -/
inductive TokenType where
  | LEFT_PAREN | RIGHT_PAREN | LEFT_BRACE | RIGHT_BRACE | LEFT_BRACKET | RIGHT_BRACKET
  | COMMA | COLON | NEWLINE | PERCENT
  | SLASH | SLASH_EQUAL | SLASH_LESS | SLASH_GREATER
  | STAR | STAR_EQUAL
  | BACKSLASH
  | BANG | BANG_EQUAL
  | EQUAL | EQUAL_EQUAL
  | GREATER | GREATER_EQUAL
  | PLUS | PLUS_EQUAL | PLUS_PLUS
  | MINUS | MINUS_EQUAL | MINUS_GREATER | MINUS_MINUS
  | LESS | LESS_EQUAL
  | DOT | DOT_DOT | DOT_DOT_DOT
  | IDENTIFIER | STRING | NUMBER
  | AND | BREAK | CLASS | CONTINUE | ELSE | FALSE | FUN | FOR | FROM | IMPORT
  | IN | IF | LAMBDA | LET | NIL | NOT | OR
  | PRINT | RETURN | SUPER | SELF | TRUE | WHILE
  | EOF
deriving Repr, DecidableEq

/-- A scanner token (token.rs Token).  The literal payload is not carried
here: the embedded AST stores literal values directly in Expr.Literal,
which is the only place the interpreter reads them. -/
structure Token where
  token_type : TokenType
  lexeme : String
  line : Nat
deriving Repr, DecidableEq

/-- Dictionary keys (token.rs DictKey): a string or an isize integer. -/
inductive DictKey where
  | StringKey (s : String)
  | NumberKey (n : Int)
deriving Repr, DecidableEq

/-- Alias so the String constructor of Literals can refer to the string
type in its own signature. -/
abbrev Str := String

/-- Runtime values (token.rs Literals), restricted to the class-free
fragment.  Array and Dictionary contents are carried inline (sharing is
not observed by any claim settled here); Function carries an index into
the function heap of the interpreter state. -/
inductive Literals where
  | Array (elems : List Literals)
  | Dictionary (entries : List (DictKey × Literals))
  | String (s : Str)
  | Tuple (elems : List Literals)
  | Number (n : F64)
  | Boolean (b : Bool)
  | Nil
  | Function (fid : Nat)
deriving Repr

/-- Literals::to_string (the type name used in error messages). -/
def Literals.type_name : Literals → Str
  | .Array _ => "Array"
  | .Dictionary _ => "Dictionary"
  | .String _ => "String"
  | .Tuple _ => "Tuple"
  | .Number _ => "Number"
  | .Boolean _ => "Boolean"
  | .Nil => "Nil"
  | .Function _ => "Function"

/-- Literals::unwrap_usize: Numbers with zero fract and nonnegative value
convert to usize; everything else is Err. -/
def Literals.unwrap_usize : Literals → Except Unit Nat
  | .Number n =>
      if !(n.fract.beq (F64.ofInt 0)) || n.lt (F64.ofInt 0) then .error ()
      else .ok (usizeCast n)
  | _ => .error ()

/-- Association-list lookup standing in for HashMap::get. -/
def alGet {α β : Type} [BEq α] : List (α × β) → α → Option β
  | [], _ => none
  | (k, v) :: rest, key => if k == key then some v else alGet rest key

/-- Association-list insert standing in for HashMap::insert: replace the
value in place if the key is present, append otherwise. -/
def alInsert {α β : Type} [BEq α] : List (α × β) → α → β → List (α × β)
  | [], key, val => [(key, val)]
  | (k, v) :: rest, key, val =>
      if k == key then (k, val) :: rest else (k, v) :: alInsert rest key val

/-- Association-list remove standing in for HashMap::remove, returning
the removed value if present. -/
def alRemove {α β : Type} [BEq α] : List (α × β) → α → Option β × List (α × β)
  | [], _ => (none, [])
  | (k, v) :: rest, key =>
      if k == key then (some v, rest)
      else
        let r := alRemove rest key
        (r.fst, (k, v) :: r.snd)

/-- interpreter.rs is_truthy: only Nil and Boolean(false) are falsy. -/
def is_truthy : Literals → Bool
  | .Nil => false
  | .Boolean b => b
  | _ => true

mutual

/-- interpreter.rs is_equal.  The source panics on the remaining match
arm (Function, Class, Instance, of which only Function is in the
fragment); none models that host panic. -/
def is_equal : Literals → Literals → Option Bool
  | .Array a, b =>
      match b with
      | .Array other =>
          if a.length != other.length then some false else is_equal_elems a other
      | _ => some false
  | .Dictionary d, b =>
      match b with
      | .Dictionary other =>
          if d.length != other.length then some false else is_equal_entries d other
      | _ => some false
  | .String s, b =>
      match b with
      | .String other => some (s == other)
      | _ => some false
  | .Tuple t, b =>
      match b with
      | .Tuple other =>
          if t.length != other.length then some false else is_equal_elems t other
      | _ => some false
  | .Number n, b =>
      match b with
      | .Number other => some (n.beq other)
      | _ => some false
  | .Boolean x, b =>
      match b with
      | .Boolean other => some (x == other)
      | _ => some false
  | .Nil, b =>
      match b with
      | .Nil => some true
      | _ => some false
  | .Function _, _ => none

/-- Pairwise walk of the index loop in is_equal for Arrays and Tuples
(lengths already known equal). -/
def is_equal_elems : List Literals → List Literals → Option Bool
  | [], _ => some true
  | x :: xs, ys =>
      match ys with
      | [] => some true
      | y :: ytail => do
          let b ← is_equal x y
          if b then is_equal_elems xs ytail else pure false

/-- Entry walk of the dictionary loop in is_equal: each key of the left
dictionary is looked up in the right one and values are compared. -/
def is_equal_entries : List (DictKey × Literals) → List (DictKey × Literals) → Option Bool
  | [], _ => some true
  | (key, val) :: rest, other =>
      match alGet other key with
      | some v => do
          let b ← is_equal val v
          if b then is_equal_entries rest other else pure false
      | none => some false

end

mutual

/-- Predicate: the value contains no Function (no Class/Instance exists
in the fragment) at any position is_equal may recurse into. -/
def func_free : Literals → Bool
  | .Array elems => func_free_list elems
  | .Dictionary entries => func_free_entries entries
  | .Tuple elems => func_free_list elems
  | .Function _ => false
  | _ => true

def func_free_list : List Literals → Bool
  | [] => true
  | x :: xs => func_free x && func_free_list xs

def func_free_entries : List (DictKey × Literals) → Bool
  | [] => true
  | (_, v) :: rest => func_free v && func_free_entries rest

end

/-- String::repeat. -/
def strRepeat (s : String) : Nat → String
  | 0 => ""
  | n + 1 => s ++ strRepeat s n

/-- Display of an f64 number (Rust to_string), exact on integers; the
fractional rendering is approximate and no claim depends on it. -/
def numToString (n : F64) : String :=
  if n.den == 1 then toString n.num
  else if (n.fract.beq (F64.ofInt 0)) then toString n.trunc
  else toString n.num ++ "/" ++ toString n.den

/-- token.rs DictKey::stringify. -/
def DictKey.stringify : DictKey → String
  | .StringKey s => "\"" ++ s ++ "\""
  | .NumberKey n => toString n

mutual

/-- interpreter.rs stringify (Print rendering).  Dictionary iteration
order of the Rust HashMap is nondeterministic; the association-list
order is a determinization of it.  The source panics on Class/Instance,
which are outside the fragment. -/
def stringify : Literals → String
  | .Array a => "[" ++ stringifyItems a ++ "]"
  | .Dictionary h => "\x7b" ++ stringifyEntries h ++ "\x7d"
  | .String s => "\"" ++ s ++ "\""
  | .Tuple a => "(" ++ stringifyItems a ++ ")"
  | .Number n => numToString n
  | .Boolean b => toString b
  | .Nil => "nil"
  | .Function _ => "<fun ()>"

def stringifyItems : List Literals → String
  | [] => ""
  | [x] => stringify x
  | x :: xs => stringify x ++ ", " ++ stringifyItems xs

def stringifyEntries : List (DictKey × Literals) → String
  | [] => ""
  | [(k, v)] => k.stringify ++ ": " ++ stringify v
  | (k, v) :: rest => k.stringify ++ ": " ++ stringify v ++ ", " ++ stringifyEntries rest

end

/-- error_handler.rs ErrorLocation. -/
inductive ErrorLocation where
  | Token (tok : Token)
  | Line (line : Nat)
  | Unspecified
deriving Repr, DecidableEq

/-- error_handler.rs RuntimeError. -/
structure RuntimeError where
  location : ErrorLocation
  message : String
deriving Repr, DecidableEq

/-- interpreter.rs Interrupt: the control-flow ADT distinct from values. -/
inductive Interrupt where
  | Break
  | Continue
  | Return (v : Literals)
  | Error (e : RuntimeError)
deriving Repr

/-- interpreter.rs check_number_operand: both operands must be Numbers. -/
def check_number_operand (operator : Token) (left right : Literals) :
    Except Interrupt (F64 × F64) :=
  match left, right with
  | .Number l, .Number r => .ok (l, r)
  | _, _ => .error (.Error ⟨.Token operator,
      "Operands of '" ++ operator.lexeme ++ "' must be two numbers."⟩)

/-- interpreter.rs check_integer_operand: two Numbers with zero fract,
truncated to i32 by the saturating cast.  The catch-all arm of the
source turns every other outcome, including a failed
check_number_operand, into the two-integers error. -/
def check_integer_operand (operator : Token) (left right : Literals) :
    Except Interrupt (Int × Int) :=
  match check_number_operand operator left right with
  | .ok (l, r) =>
      if l.fract.beq (F64.ofInt 0) && r.fract.beq (F64.ofInt 0) then
        .ok (i32cast l, i32cast r)
      else .error (.Error ⟨.Token operator,
        "Operands of '" ++ operator.lexeme ++ "' must be two integers."⟩)
  | .error _ => .error (.Error ⟨.Token operator,
      "Operands of '" ++ operator.lexeme ++ "' must be two integers."⟩)

/-- Specification-side predicate: the value is a Number whose fractional
part is zero (an integer-valued f64).  Used to state the integer-operand
contracts; the code checks were translated above. -/
def is_integer_number : Literals → Bool
  | .Number n => n.fract.beq (F64.ofInt 0)
  | _ => false

/-- data_types/dict.rs dict_remove: the key-conversion of the remove
built-in, then HashMap::remove (absent key yields Nil).  Note the guard
n.fract() != 0.0 on the Number arm, as in the source. -/
def dict_remove (entries : List (DictKey × Literals)) (key : Literals) :
    Except RuntimeError (Literals × List (DictKey × Literals)) :=
  match key with
  | .String s => dictRemoveGo entries (DictKey.StringKey s)
  | .Number n =>
      if !(n.fract.beq (F64.ofInt 0)) then dictRemoveGo entries (DictKey.NumberKey (isizeCast n))
      else .error ⟨.Unspecified, "Expected a string or an integer key."⟩
  | _ => .error ⟨.Unspecified, "Expected a string or an integer key."⟩
where
  dictRemoveGo (entries : List (DictKey × Literals)) (k : DictKey) :
      Except RuntimeError (Literals × List (DictKey × Literals)) :=
    match alRemove entries k with
    | (some v, rest) => .ok (v, rest)
    | (none, rest) => .ok (.Nil, rest)

/- Abstract syntax (ast/expr.rs and ast/stmt.rs), restricted to the
class-free fragment: Class declarations and Get/Set/SelfExpr/SuperExpr
are not exercised by any claim. -/
mutual

inductive Expr where
  | Array (elems : List Expr)
  | Assign (name : Token) (op : Token) (value : Expr)
  | Binary (left : Expr) (op : Token) (right : Expr)
  | Call (callee : Expr) (paren : Token) (args : List Expr)
  | Dictionary (pairs : List (Expr × Expr))
  | Grouping (e : Expr)
  | IfExpr (cond : Expr) (then_branch : Stmt) (else_branch : Stmt)
  | IndexGet (obj : Expr) (index : Expr)
  | IndexSet (obj : Expr) (index : Expr) (value : Expr)
  | Lambda (params : List Token) (body : Stmt)
  | Literal (v : Literals)
  | Tuple (elems : List Expr)
  | Unary (op : Token) (right : Expr)
  | Variable (name : Token)
deriving Repr

inductive Stmt where
  | Block (stmts : List Stmt)
  | Break (tok : Token)
  | Continue (tok : Token)
  | Expression (e : Expr)
  | For (var : Token) (range : Expr) (body : Stmt)
  | Function (name : Token) (params : List Token) (body : Stmt)
  | Print (tok : Token) (e : Expr)
  | Return (tok : Token) (e : Option Expr)
  | Variable (name : Token) (initializer : Option Expr)
  | While (cond : Expr) (body : Stmt)
deriving Repr

end

/-- dove_callable.rs DoveFunction: parameters, block body, and the
captured environment (heap index of the closure frame). -/
structure DoveFunction where
  params : List Token
  body : Stmt
  closure : Nat
deriving Repr

/-- environment.rs Environment: parent link (heap index standing in for
the Rc) and the name-value map.  The unused historical loop_status field
is omitted. -/
structure Environment where
  enclosing : Option Nat
  values : List (String × Literals)
deriving Repr

/-- Output-sink messages (the DoveOutput trait). -/
inductive OutMsg where
  | print (msg : String)
  | warning (msg : String)
  | error (msg : String)
deriving Repr

/-- Interpreter state: the heap of environment frames (indices stand in
for Rc handles), the heap of function definitions, the globals and
current frame handles, the output sink transcript, and the error
handler flag. -/
structure State where
  envs : List Environment
  functions : List DoveFunction
  globals : Nat
  current : Nat
  output : List OutMsg
  had_runtime_error : Bool
deriving Repr

/-- Interpreter::new: a single empty frame serving as both globals and
the current environment. -/
def initState : State := ⟨[⟨none, []⟩], [], 0, 0, [], false⟩

def State.getEnv? (σ : State) (id : Nat) : Option Environment := σ.envs[id]?

def State.setEnv (σ : State) (id : Nat) (env : Environment) : State :=
  {σ with envs := σ.envs.set id env}

/-- Rc::new(RefCell::new(environment)): allocate a fresh frame. -/
def State.alloc (σ : State) (env : Environment) : Nat × State :=
  (σ.envs.length, {σ with envs := σ.envs ++ [env]})

/-- Rc::new for a DoveFunction: allocate into the function heap. -/
def State.allocFunction (σ : State) (f : DoveFunction) : Nat × State :=
  (σ.functions.length, {σ with functions := σ.functions ++ [f]})

/-- environment.rs define: unconditionally set name in the given frame. -/
def State.define (σ : State) (id : Nat) (name : String) (value : Literals) : State :=
  match σ.getEnv? id with
  | some e => σ.setEnv id {e with values := alInsert e.values name value}
  | none => σ

/-- environment.rs get: lookup in the given frame only, no walking. -/
def State.get (σ : State) (id : Nat) (name : String) : Option Literals :=
  match σ.getEnv? id with
  | some e => alGet e.values name
  | none => none

/-- environment.rs get_at: walk exactly distance parent links, then a
single non-recursive lookup in that frame. -/
def get_at (σ : State) (id : Nat) : Nat → String → Option Literals
  | 0, name => σ.get id name
  | distance + 1, name =>
      match σ.getEnv? id with
      | some e =>
          match e.enclosing with
          | some up => get_at σ up distance name
          | none => none
      | none => none

/-- environment.rs assign: replace name in the given frame, succeeding
only if it was already present there. -/
def State.assign (σ : State) (id : Nat) (name : String) (value : Literals) : Bool × State :=
  match σ.getEnv? id with
  | some e =>
      if (alGet e.values name).isSome then
        (true, σ.setEnv id {e with values := alInsert e.values name value})
      else (false, σ)
  | none => (false, σ)

/-- environment.rs assign_at: walk exactly distance parent links, then a
single non-recursive assign in that frame. -/
def assign_at (σ : State) (id : Nat) : Nat → String → Literals → Bool × State
  | 0, name, value => σ.assign id name value
  | distance + 1, name, value =>
      match σ.getEnv? id with
      | some e =>
          match e.enclosing with
          | some up => assign_at σ up distance name value
          | none => (false, σ)
      | none => (false, σ)

/-- Frame reached after walking distance parent links (used to state
the assign_at and get_at contracts). -/
def frameAt? (σ : State) (id : Nat) : Nat → Option Environment
  | 0 => σ.getEnv? id
  | distance + 1 =>
      match σ.getEnv? id with
      | some e =>
          match e.enclosing with
          | some up => frameAt? σ up distance
          | none => none
      | none => none

/-- Resolution table of the interpreter (interpreter.rs locals): depth
keyed by (source line, lexeme). -/
abbrev LocalsMap := List ((Nat × String) × Nat)

/-- interpreter.rs get_local. -/
def get_local (ctx : LocalsMap) (varTok : Token) : Option Nat :=
  alGet ctx (varTok.line, varTok.lexeme)

/-- interpreter.rs insert_local (used by Resolver via resolve). -/
def insert_local (ctx : LocalsMap) (varTok : Token) (depth : Nat) : LocalsMap :=
  alInsert ctx (varTok.line, varTok.lexeme) depth

/-- interpreter.rs lookup_variable: recorded depth means a get_at on the
current environment with no fallback; no entry means the globals frame. -/
def lookup_variable (ctx : LocalsMap) (σ : State) (varTok : Token) : Option Literals :=
  match get_local ctx varTok with
  | some distance => get_at σ σ.current distance varTok.lexeme
  | none => σ.get σ.globals varTok.lexeme

/-- Result of evaluating in the embedded interpreter: Ok, an Err carrying
an Interrupt, a host panic, or fuel exhaustion (model artifact). -/
inductive EvalRes (α : Type) where
  | ok (a : α) (s : State)
  | intr (i : Interrupt) (s : State)
  | panic
  | oom

/-- Sequencing that mirrors the question-mark operator on Result
together with Rust's sequential state threading. -/
def EvalRes.bind {α β : Type} : EvalRes α → (α → State → EvalRes β) → EvalRes β
  | .ok a s, f => f a s
  | .intr i s, _ => .intr i s
  | .panic, _ => .panic
  | .oom, _ => .oom

/-- Lift the Except results of the check helpers at a given state. -/
def liftCheck {α : Type} (σ : State) : Except Interrupt α → (α → EvalRes Literals) → EvalRes Literals
  | .ok a, f => f a
  | .error i, _ => .intr i σ

/-- Elements of the range tuple built by the DOT_DOT loops:
left + i * step for i in 0..count, with release wrap-around. -/
def rangeValues (left : Int) (step : Int) (count : Nat) : List Literals :=
  (List.range count).map fun (i : Nat) => .Number (F64.ofInt (wrap32 (left + (i : Int) * step)))

/-- Dictionary-key conversion shared verbatim by the IndexGet and
IndexSet Dictionary branches: a Number key passes the guard only when
its fract is nonzero (the inverted check of the source) and is then
truncated by the isize cast; a String key passes; anything else is
none (the integer/string index error). -/
def indexDictKey : Literals → Option DictKey
  | .Number i => if !(i.fract.beq (F64.ofInt 0)) then some (.NumberKey (isizeCast i)) else none
  | .String s => some (.StringKey s)
  | _ => none

/-- Parameter binding loop of DoveFunction::call (environment.define for
each parameter); none models the index panic were the argument vector
too short (the call sites check arity first). -/
def bind_params : List Token → List Literals → Environment → Option Environment
  | [], _, env => some env
  | p :: ps, a :: rest, env => bind_params ps rest {env with values := alInsert env.values p.lexeme a}
  | _ :: _, [], _ => none

mutual

/-- interpreter.rs visit_expr, case for case.  All recursion consumes
one unit of fuel per call. -/
def visit_expr : Nat → LocalsMap → State → Expr → EvalRes Literals
  | 0, _, _, _ => .oom
  | fuel + 1, ctx, σ, e =>
    match e with
    | .Array expressions =>
        (evalArgs fuel ctx σ expressions).bind fun arr_vals σ1 =>
        .ok (.Array arr_vals) σ1
    | .Assign name op value =>
        let line := op.line
        (match op.token_type with
         | .EQUAL => visit_expr fuel ctx σ value
         | .PLUS_EQUAL | .PLUS_PLUS =>
             visit_expr fuel ctx σ (.Binary (.Variable name) ⟨.PLUS, "+", line⟩ value)
         | .MINUS_EQUAL | .MINUS_MINUS =>
             visit_expr fuel ctx σ (.Binary (.Variable name) ⟨.MINUS, "-", line⟩ value)
         | .STAR_EQUAL =>
             visit_expr fuel ctx σ (.Binary (.Variable name) ⟨.STAR, "*", line⟩ value)
         | .SLASH_EQUAL =>
             visit_expr fuel ctx σ (.Binary (.Variable name) ⟨.SLASH, "/", line⟩ value)
         | _ => .panic).bind fun val σ1 =>
        let assigned :=
          match get_local ctx name with
          | some distance => assign_at σ1 σ1.current distance name.lexeme val
          | none => σ1.assign σ1.globals name.lexeme val
        if assigned.fst then .ok val assigned.snd
        else .intr (.Error ⟨.Token name,
          "Cannot assign value to '" ++ name.lexeme ++ "', as it is not found in scope."⟩) assigned.snd
    | .Binary left operator right =>
        (visit_expr fuel ctx σ left).bind fun left_val σ1 =>
        (visit_expr fuel ctx σ1 right).bind fun right_val σ2 =>
        match operator.token_type with
        | .AND => .ok (.Boolean (is_truthy left_val && is_truthy right_val)) σ2
        | .OR => .ok (.Boolean (is_truthy left_val || is_truthy right_val)) σ2
        | .GREATER =>
            liftCheck σ2 (check_number_operand operator left_val right_val) fun lr =>
            .ok (.Boolean (lr.snd.lt lr.fst)) σ2
        | .GREATER_EQUAL =>
            liftCheck σ2 (check_number_operand operator left_val right_val) fun lr =>
            .ok (.Boolean (lr.snd.le lr.fst)) σ2
        | .LESS =>
            liftCheck σ2 (check_number_operand operator left_val right_val) fun lr =>
            .ok (.Boolean (lr.fst.lt lr.snd)) σ2
        | .LESS_EQUAL =>
            liftCheck σ2 (check_number_operand operator left_val right_val) fun lr =>
            .ok (.Boolean (lr.fst.le lr.snd)) σ2
        | .BANG_EQUAL =>
            match is_equal left_val right_val with
            | some b => .ok (.Boolean (!b)) σ2
            | none => .panic
        | .EQUAL_EQUAL =>
            match is_equal left_val right_val with
            | some b => .ok (.Boolean b) σ2
            | none => .panic
        | .MINUS =>
            liftCheck σ2 (check_number_operand operator left_val right_val) fun lr =>
            .ok (.Number (lr.fst.sub lr.snd)) σ2
        | .PERCENT =>
            liftCheck σ2 (check_number_operand operator left_val right_val) fun lr =>
            .ok (.Number (lr.fst.rem lr.snd)) σ2
        | .PLUS =>
            match left_val, right_val with
            | .Number l, .Number r => .ok (.Number (l.add r)) σ2
            | .String l, .String r => .ok (.String (l ++ r)) σ2
            | .String l, .Number r => .ok (.String (l ++ numToString r)) σ2
            | .Number l, .String r => .ok (.String (numToString l ++ r)) σ2
            | .Array l, .Array r => .ok (.Array (l ++ r)) σ2
            | .Tuple l, .Tuple r => .ok (.Tuple (l ++ r)) σ2
            | _, _ => .intr (.Error ⟨.Token operator,
                "Operands of '" ++ operator.lexeme ++ "' must be two numbers/strings/arrays/tuples."⟩) σ2
        | .SLASH =>
            liftCheck σ2 (check_number_operand operator left_val right_val) fun lr =>
            .ok (.Number (lr.fst.div lr.snd)) σ2
        | .SLASH_GREATER =>
            liftCheck σ2 (check_number_operand operator left_val right_val) fun lr =>
            .ok (.Number ((lr.fst.div lr.snd).ceilF)) σ2
        | .SLASH_LESS =>
            liftCheck σ2 (check_number_operand operator left_val right_val) fun lr =>
            .ok (.Number ((lr.fst.div lr.snd).floorF)) σ2
        | .STAR =>
            match left_val, right_val with
            | .Number l, .Number r => .ok (.Number (l.mul r)) σ2
            | .Number l, .String r => .ok (.String (strRepeat r (usizeCast l))) σ2
            | .String l, .Number r => .ok (.String (strRepeat l (usizeCast r))) σ2
            | _, _ => .intr (.Error ⟨.Token operator,
                "Operands of '" ++ operator.lexeme ++ "' must be two numbers or a string and a number."⟩) σ2
        | .DOT_DOT =>
            liftCheck σ2 (check_integer_operand operator left_val right_val) fun lr =>
            let is_right_bigger := lr.snd ≥ lr.fst
            let diff := absWrap32 (wrap32 (lr.snd - lr.fst))
            .ok (.Tuple (rangeValues lr.fst (if is_right_bigger then 1 else -1) diff.toNat)) σ2
        | .DOT_DOT_DOT =>
            liftCheck σ2 (check_integer_operand operator left_val right_val) fun lr =>
            let is_right_bigger := lr.snd ≥ lr.fst
            let diff := absWrap32 (wrap32 (lr.snd - lr.fst))
            -- The loop bound diff + 1 is an i32 addition in the source and
            -- wraps at i32::MAX (release behaviour), hence the wrap32.
            .ok (.Tuple (rangeValues lr.fst (if is_right_bigger then 1 else -1)
              (wrap32 (diff + 1)).toNat)) σ2
        | _ => .intr (.Error ⟨.Token operator,
            "Unsupported operator: '" ++ operator.lexeme ++ "'."⟩) σ2
    | .Call callee paren arguments =>
        (visit_expr fuel ctx σ callee).bind fun callee_val σ1 =>
        let callee_type := callee_val.type_name
        (evalArgs fuel ctx σ1 arguments).bind fun argument_vals σ2 =>
        match callee_val with
        | .Function fid =>
            match σ2.functions[fid]? with
            | some f =>
                if argument_vals.length != f.params.length then
                  .intr (.Error ⟨.Token paren,
                    "Expected " ++ toString f.params.length ++ " arguments but got "
                      ++ toString argument_vals.length ++ "."⟩) σ2
                else function_call fuel ctx σ2 f argument_vals
            | none => .panic
        | _ => .intr (.Error ⟨.Token paren,
            "Type '" ++ callee_type ++ "' is not callable."⟩) σ2
    | .Dictionary expressions =>
        (evalPairs fuel ctx σ expressions []).bind fun dict_val σ1 =>
        .ok (.Dictionary dict_val) σ1
    | .Grouping expression => visit_expr fuel ctx σ expression
    | .IfExpr condition then_branch else_branch =>
        (visit_expr fuel ctx σ condition).bind fun cond_val σ1 =>
        let branch := if is_truthy cond_val then then_branch else else_branch
        match branch with
        | .Block statements =>
            execute_implicit_return fuel ctx σ1 statements ⟨some σ1.current, []⟩
        | _ => .panic
    | .IndexGet obj index =>
        (visit_expr fuel ctx σ obj).bind fun evaluated_expr σ1 =>
        (visit_expr fuel ctx σ1 index).bind fun evaluated_index σ2 =>
        match evaluated_expr with
        | .Array arr =>
            match evaluated_index.unwrap_usize with
            | .ok n =>
                match arr[n]? with
                | some v => .ok v σ2
                | none => .intr (.Error ⟨.Unspecified,
                    "Index '" ++ toString n ++ "' out of range."⟩) σ2
            | .error _ => .intr (.Error ⟨.Unspecified, "Index must be an integer."⟩) σ2
        | .Tuple tup =>
            match evaluated_index.unwrap_usize with
            | .ok n =>
                match tup[n]? with
                | some v => .ok v σ2
                | none => .intr (.Error ⟨.Unspecified,
                    "Index '" ++ toString n ++ "' out of range."⟩) σ2
            | .error _ => .intr (.Error ⟨.Unspecified, "Index must be an integer."⟩) σ2
        | .Dictionary dict =>
            match indexDictKey evaluated_index with
            | some dict_key =>
                match alGet dict dict_key with
                | some v => .ok v σ2
                | none => .intr (.Error ⟨.Unspecified,
                    "Key '" ++ dict_key.stringify ++ "' not found."⟩) σ2
            | none => .intr (.Error ⟨.Unspecified, "Index must be an integer/string."⟩) σ2
        | _ => .intr (.Error ⟨.Unspecified,
            "Cannot get value by index/key from '" ++ evaluated_expr.type_name ++ "'."⟩) σ2
    | .IndexSet obj index value =>
        (visit_expr fuel ctx σ obj).bind fun evaluated_expr σ1 =>
        (visit_expr fuel ctx σ1 index).bind fun evaluated_index σ2 =>
        (visit_expr fuel ctx σ2 value).bind fun evaluated_value σ3 =>
        match evaluated_expr with
        | .Array arr =>
            match evaluated_index.unwrap_usize with
            | .ok n =>
                match arr[n]? with
                | some old_val =>
                    -- The in-place write arr[n] = evaluated_value mutates the
                    -- shared array; aggregates are modelled by value here and
                    -- no claim observes the write, only the returned old value.
                    .ok old_val σ3
                | none => .intr (.Error ⟨.Unspecified,
                    "Index '" ++ toString n ++ "' out of range."⟩) σ3
            | .error _ => .intr (.Error ⟨.Unspecified, "Index must be an integer."⟩) σ3
        | .Dictionary dict =>
            match indexDictKey evaluated_index with
            | some dict_key =>
                let old_val :=
                  match alGet dict dict_key with
                  | some v => v
                  | none => Literals.Nil
                -- dict.insert(dict_key, evaluated_value), by value as above.
                let _ := alInsert dict dict_key evaluated_value
                .ok old_val σ3
            | none => .intr (.Error ⟨.Unspecified, "Index must be an integer/string."⟩) σ3
        | _ => .intr (.Error ⟨.Unspecified,
            "Cannot set value by index/key from '" ++ evaluated_expr.type_name ++ "'."⟩) σ3
    | .Lambda params body =>
        let alloc := σ.allocFunction ⟨params, body, σ.current⟩
        .ok (.Function alloc.fst) alloc.snd
    | .Literal value => .ok value σ
    | .Tuple expressions =>
        (evalArgs fuel ctx σ expressions).bind fun tup_vals σ1 =>
        .ok (.Tuple tup_vals) σ1
    | .Unary operator right =>
        match visit_expr fuel ctx σ right with
        | .ok right_val σ1 =>
            match operator.token_type with
            | .BANG | .NOT => .ok (.Boolean (!(is_truthy right_val))) σ1
            | .MINUS =>
                match right_val with
                | .Number n => .ok (.Number n.neg) σ1
                | _ => .intr (.Error ⟨.Token operator,
                    "Operand of '" ++ operator.lexeme ++ "' must be a number."⟩) σ1
            | _ => .intr (.Error ⟨.Token operator,
                "Unsupported unary operator " ++ operator.lexeme ++ "."⟩) σ1
        | .intr _ _ => .panic
        | .panic => .panic
        | .oom => .oom
    | .Variable name =>
        match lookup_variable ctx σ name with
        | some value => .ok value σ
        | none => .intr (.Error ⟨.Token name,
            "Variable '" ++ name.lexeme ++ "' not found in scope."⟩) σ

/-- Element-evaluation loop shared by Array, Tuple and Call arguments. -/
def evalArgs : Nat → LocalsMap → State → List Expr → EvalRes (List Literals)
  | 0, _, _, _ => .oom
  | _ + 1, _, σ, [] => .ok [] σ
  | fuel + 1, ctx, σ, e :: rest =>
      (visit_expr fuel ctx σ e).bind fun v σ1 =>
      (evalArgs fuel ctx σ1 rest).bind fun vs σ2 =>
      .ok (v :: vs) σ2

/-- Key-value loop of the Dictionary literal.  Both sub-evaluations use
.unwrap(), so a non-Ok result is a host panic; then the key must be a
String or a Number with nonzero fract (the inverted guard of the
source), everything else being the dictionary-key runtime error. -/
def evalPairs : Nat → LocalsMap → State → List (Expr × Expr) → List (DictKey × Literals) →
    EvalRes (List (DictKey × Literals))
  | 0, _, _, _, _ => .oom
  | _ + 1, _, σ, [], acc => .ok acc σ
  | fuel + 1, ctx, σ, (key_expr, val_expr) :: rest, acc =>
      match visit_expr fuel ctx σ key_expr with
      | .ok key σ1 =>
          match visit_expr fuel ctx σ1 val_expr with
          | .ok val σ2 =>
              match key with
              | .String k =>
                  evalPairs fuel ctx σ2 rest (alInsert acc (DictKey.StringKey k) val)
              | .Number k =>
                  if !(k.fract.beq (F64.ofInt 0)) then
                    evalPairs fuel ctx σ2 rest (alInsert acc (DictKey.NumberKey (isizeCast k)) val)
                  else .intr (.Error ⟨.Unspecified,
                    "Only String and Integer can be used as dictionary key."⟩) σ2
              | _ => .intr (.Error ⟨.Unspecified,
                  "Only String and Integer can be used as dictionary key."⟩) σ2
          | .intr _ _ => .panic
          | .panic => .panic
          | .oom => .oom
      | .intr _ _ => .panic
      | .panic => .panic
      | .oom => .oom

/-- interpreter.rs visit_stmt, case for case. -/
def visit_stmt : Nat → LocalsMap → State → Stmt → EvalRes Unit
  | 0, _, _, _ => .oom
  | fuel + 1, ctx, σ, s =>
    match s with
    | .Block statements => execute_block fuel ctx σ statements ⟨some σ.current, []⟩
    | .Break _ => .intr .Break σ
    | .Continue _ => .intr .Continue σ
    | .Expression expression =>
        (visit_expr fuel ctx σ expression).bind fun _ σ1 => .ok () σ1
    | .For var_name range_name body =>
        (visit_expr fuel ctx σ range_name).bind fun range_vals σ1 =>
        match body with
        | .Block stmts =>
            match range_vals with
            | .Array arr => for_iterate fuel ctx σ1 var_name.lexeme arr stmts
            | .Tuple t => for_iterate fuel ctx σ1 var_name.lexeme t stmts
            | _ => .intr (.Error ⟨.Token var_name,
                "Cannot iterate over type '" ++ range_vals.type_name ++ "'"⟩) σ1
        | _ => .intr (.Error ⟨.Token var_name,
            "Expected block statement in a 'for' loop."⟩) σ1
    | .Function name params body =>
        let alloc := σ.allocFunction ⟨params, body, σ.current⟩
        .ok () (alloc.snd.define alloc.snd.current name.lexeme (.Function alloc.fst))
    | .Print _ expression =>
        (visit_expr fuel ctx σ expression).bind fun literal σ1 =>
        .ok () {σ1 with output := σ1.output ++ [.print (stringify literal)]}
    | .Return _ expression =>
        match expression with
        | some expr =>
            (visit_expr fuel ctx σ expr).bind fun value σ1 => .intr (.Return value) σ1
        | none => .intr (.Return .Nil) σ
    | .Variable name initializer =>
        match initializer with
        | some i =>
            (visit_expr fuel ctx σ i).bind fun val σ1 =>
            .ok () (σ1.define σ1.current name.lexeme val)
        | none => .ok () (σ.define σ.current name.lexeme .Nil)
    | .While condition body => while_loop fuel ctx σ condition body

/-- Iteration of the for statement (the source iterates the Array by
re-read index and the Tuple by iterator; with by-value aggregates both
are this list walk).  Break terminates, Continue proceeds. -/
def for_iterate : Nat → LocalsMap → State → String → List Literals → List Stmt → EvalRes Unit
  | 0, _, _, _, _, _ => .oom
  | _ + 1, _, σ, _, [], _ => .ok () σ
  | fuel + 1, ctx, σ, var_name, item :: rest, stmts =>
      let sub_env : Environment := ⟨some σ.current, [(var_name, item)]⟩
      match execute_block fuel ctx σ stmts sub_env with
      | .ok _ σ1 => for_iterate fuel ctx σ1 var_name rest stmts
      | .intr .Break σ1 => .ok () σ1
      | .intr .Continue σ1 => for_iterate fuel ctx σ1 var_name rest stmts
      | .intr i σ1 => .intr i σ1
      | .panic => .panic
      | .oom => .oom

/-- While loop of visit_stmt.  The condition result is .unwrap()ed, so a
non-Ok condition is a host panic. -/
def while_loop : Nat → LocalsMap → State → Expr → Stmt → EvalRes Unit
  | 0, _, _, _, _ => .oom
  | fuel + 1, ctx, σ, condition, body =>
      match visit_expr fuel ctx σ condition with
      | .ok condition_val σ1 =>
          if is_truthy condition_val then
            match visit_stmt fuel ctx σ1 body with
            | .ok _ σ2 => while_loop fuel ctx σ2 condition body
            | .intr .Break σ2 => .ok () σ2
            | .intr .Continue σ2 => while_loop fuel ctx σ2 condition body
            | .intr i σ2 => .intr i σ2
            | .panic => .panic
            | .oom => .oom
          else .ok () σ1
      | .intr _ _ => .panic
      | .panic => .panic
      | .oom => .oom

/-- Statement loop shared by execute_block and execute_implicit_return
(the callers save and restore the current environment). -/
def run_stmts : Nat → LocalsMap → State → List Stmt → EvalRes Unit
  | 0, _, _, _ => .oom
  | _ + 1, _, σ, [] => .ok () σ
  | fuel + 1, ctx, σ, stmt :: rest =>
      (visit_stmt fuel ctx σ stmt).bind fun _ σ1 =>
      run_stmts fuel ctx σ1 rest

/-- interpreter.rs execute_block: allocate the frame, swap it in as
current, run the statements, and restore the previous current frame on
both success and interrupt. -/
def execute_block : Nat → LocalsMap → State → List Stmt → Environment → EvalRes Unit
  | 0, _, _, _, _ => .oom
  | fuel + 1, ctx, σ, statements, environment =>
      let previous := σ.current
      let alloc := σ.alloc environment
      match run_stmts fuel ctx {alloc.snd with current := alloc.fst} statements with
      | .ok _ σ1 => .ok () {σ1 with current := previous}
      | .intr i σ1 => .intr i {σ1 with current := previous}
      | .panic => .panic
      | .oom => .oom

/-- interpreter.rs execute_implicit_return: if the last statement is an
Expression, run all prior statements then evaluate it as the result;
otherwise run the whole block and return Nil. -/
def execute_implicit_return : Nat → LocalsMap → State → List Stmt → Environment → EvalRes Literals
  | 0, _, _, _, _ => .oom
  | fuel + 1, ctx, σ, statements, environment =>
      match statements.getLast? with
      | some (.Expression expr) =>
          let previous := σ.current
          let alloc := σ.alloc environment
          match run_stmts fuel ctx {alloc.snd with current := alloc.fst} statements.dropLast with
          | .ok _ σ1 =>
              match visit_expr fuel ctx σ1 expr with
              | .ok return_value σ2 => .ok return_value {σ2 with current := previous}
              | .intr i σ2 => .intr i {σ2 with current := previous}
              | .panic => .panic
              | .oom => .oom
          | .intr i σ1 => .intr i {σ1 with current := previous}
          | .panic => .panic
          | .oom => .oom
      | _ =>
          (execute_block fuel ctx σ statements environment).bind fun _ σ1 =>
          .ok Literals.Nil σ1

/-- dove_callable.rs DoveFunction::call: bind parameters in a fresh
frame under the closure, run the body with implicit return, turn a
Return interrupt into the call value and a stray Break/Continue into
the runtime error; a non-block body is a panic.  (The Err(RuntimeError)
of the source is re-wrapped into Interrupt::Error at the Call site;
both steps are fused here.) -/
def function_call : Nat → LocalsMap → State → DoveFunction → List Literals → EvalRes Literals
  | 0, _, _, _, _ => .oom
  | fuel + 1, ctx, σ, f, argument_vals =>
      match bind_params f.params argument_vals ⟨some f.closure, []⟩ with
      | some environment =>
          match f.body with
          | .Block statements =>
              match execute_implicit_return fuel ctx σ statements environment with
              | .ok implicit_return_val σ1 => .ok implicit_return_val σ1
              | .intr (.Return return_val) σ1 => .ok return_val σ1
              | .intr (.Error err) σ1 => .intr (.Error err) σ1
              | .intr _ σ1 => .intr (.Error ⟨.Unspecified,
                  "Unexpected break/continue statement."⟩) σ1
              | .panic => .panic
              | .oom => .oom
          | _ => .panic
      | none => .panic

end

/-- error_handler.rs ErrorLocation::line. -/
def ErrorLocation.lineOf : ErrorLocation → Option Nat
  | .Token tok => some tok.line
  | .Line line => some line
  | .Unspecified => none

/-- error_handler.rs ErrorHandler::report: format and send to the sink. -/
def report (σ : State) (line : Option Nat) (where_ : String) (message : String) : State :=
  let msg :=
    match line with
    | some l => "[line " ++ toString l ++ "] Error" ++ where_ ++ ": " ++ message
    | none => "Error: " ++ message
  {σ with output := σ.output ++ [.error msg]}

/-- error_handler.rs RuntimeErrorHandler::runtime_error: set the flag
and report with the token lexeme when the location carries one. -/
def runtime_error (σ : State) (error : RuntimeError) : State :=
  let where_ :=
    match error.location with
    | .Token token => " at '" ++ token.lexeme ++ "'"
    | _ => ""
  report {σ with had_runtime_error := true} error.location.lineOf where_ error.message

/-- Debug rendering of an Interrupt as format! produces it (the derived
Debug of the payload-free variants; the Literals Debug impl of the
source prints the placeholder line).  interpret only formats the
non-Error variants. -/
def debug_interrupt : Interrupt → String
  | .Break => "Break"
  | .Continue => "Continue"
  | .Return _ => "Return(TODO maybe\n)"
  | .Error _ => "Error(..)"

/-- Result of Interpreter::interpret over a statement list. -/
inductive InterpRes where
  | done (s : State)
  | panicked
  | oom

/-- interpreter.rs interpret: execute each top-level statement; an Error
interrupt is reported through the runtime error handler, any other
leaked interrupt goes to the sink as an unexpected-interrupt message;
then the next statement is attempted. -/
def interpret : Nat → LocalsMap → State → List Stmt → InterpRes
  | _, _, σ, [] => .done σ
  | 0, _, _, _ => .oom
  | fuel + 1, ctx, σ, stmt :: rest =>
      match visit_stmt fuel ctx σ stmt with
      | .ok _ σ1 => interpret fuel ctx σ1 rest
      | .intr (.Error error) σ1 => interpret fuel ctx (runtime_error σ1 error) rest
      | .intr i σ1 => interpret fuel ctx
          {σ1 with output := σ1.output ++ [.error ("Unexpected interrupt: " ++ debug_interrupt i)]} rest
      | .panic => .panicked
      | .oom => .oom

/-- resolver.rs FunctionType. -/
inductive FunctionType where
  | None
  | Function
  | Method
  | Initializer
deriving Repr, DecidableEq

/-- resolver.rs Resolver state for the class-free fragment: the scope
stack (head is the innermost scope, standing for the end of the Vec),
the resolution table being inserted into the interpreter, the compile
errors emitted so far as (line, message), and the function/loop
context flags.  ClassType is constant None on the fragment and omitted. -/
structure Resolver where
  scopes : List (List (String × Bool))
  locals : LocalsMap
  errors : List (Nat × String)
  current_function : FunctionType
  in_loop : Bool
deriving Repr

/-- Resolver::new over a fresh interpreter (empty resolution table). -/
def Resolver.init : Resolver := ⟨[], [], [], .None, false⟩

/-- CompiletimeErrorHandler::token_error, recorded as (line, message). -/
def Resolver.token_error (rs : Resolver) (token : Token) (message : String) : Resolver :=
  {rs with errors := rs.errors ++ [(token.line, message)]}

/-- resolver.rs begin_scope. -/
def Resolver.begin_scope (rs : Resolver) : Resolver :=
  {rs with scopes := [] :: rs.scopes}

/-- resolver.rs end_scope. -/
def Resolver.end_scope (rs : Resolver) : Resolver :=
  {rs with scopes := rs.scopes.tail}

/-- resolver.rs declare: mark the name declared-but-undefined in the
innermost scope, erroring on redeclaration; no-op at global scope. -/
def Resolver.declare (rs : Resolver) (token : Token) : Resolver :=
  match rs.scopes with
  | [] => rs
  | scope :: rest =>
      if (alGet scope token.lexeme).isSome then
        rs.token_error token "Variable with this name already declared in this scope."
      else {rs with scopes := alInsert scope token.lexeme false :: rest}

/-- resolver.rs define: mark the name defined in the innermost scope. -/
def Resolver.define (rs : Resolver) (token : Token) : Resolver :=
  match rs.scopes with
  | [] => rs
  | scope :: rest => {rs with scopes := alInsert scope token.lexeme true :: rest}

/-- resolver.rs get: lookup in the innermost scope only. -/
def Resolver.getScope (rs : Resolver) (name : String) : Option Bool :=
  match rs.scopes with
  | [] => none
  | scope :: _ => alGet scope name

/-- Scan of resolve_local: the scopes from innermost outward, returning
the index of the first one containing the name. -/
def scope_depth : List (List (String × Bool)) → String → Option Nat
  | [], _ => none
  | scope :: rest, name =>
      if (alGet scope name).isSome then some 0
      else (scope_depth rest name).map (· + 1)

/-- resolver.rs resolve_local: record the depth of the innermost scope
containing the name into the interpreter table, keyed by the token
(line, lexeme); record nothing when no scope contains it (global). -/
def Resolver.resolve_local (rs : Resolver) (token : Token) (name : String) : Resolver :=
  match scope_depth rs.scopes name with
  | some depth => {rs with locals := insert_local rs.locals token depth}
  | none => rs

mutual

/-- resolver.rs visit_stmt on the class-free fragment.  The unwrap_block
panic of the source is modelled by none. -/
def Resolver.visit_stmt (rs : Resolver) : Stmt → Option Resolver
  | .Block statements => do
      let rs1 ← Resolver.resolve rs.begin_scope statements
      pure rs1.end_scope
  | .Break token =>
      if !rs.in_loop then
        pure (rs.token_error token "Break statements can only be used inside loops.")
      else pure rs
  | .Continue token =>
      if !rs.in_loop then
        pure (rs.token_error token "Continue statements can only be used inside loops.")
      else pure rs
  | .Expression expr => Resolver.visit_expr rs expr
  | .For varTok expr block => do
      let rs1 ← Resolver.visit_expr rs expr
      let prev_in_loop := rs1.in_loop
      let rs2 := {rs1 with in_loop := true}
      let rs3 := ((rs2.begin_scope.declare varTok).define varTok)
      let rs4 ← match block with
        | .Block stmts => Resolver.resolve rs3 stmts
        | _ => none
      let rs5 := rs4.end_scope
      pure {rs5 with in_loop := prev_in_loop}
  | .Function name params body =>
      Resolver.visit_function ((rs.declare name).define name) params body .Function
  | .Print _ expr => Resolver.visit_expr rs expr
  | .Return token expr =>
      let rs1 :=
        if rs.current_function = FunctionType.None then
          rs.token_error token "Cannot return from top-level code."
        else rs
      match expr with
      | some e =>
          let rs2 :=
            if rs1.current_function = FunctionType.Initializer then
              rs1.token_error token "Cannot return a value from an initializer."
            else rs1
          Resolver.visit_expr rs2 e
      | none => pure rs1
  | .Variable varTok initializer => do
      let rs1 := rs.declare varTok
      let rs2 ← match initializer with
        | some e => Resolver.visit_expr rs1 e
        | none => pure rs1
      pure (rs2.define varTok)
  | .While condition block => do
      let rs1 ← Resolver.visit_expr rs condition
      let prev_in_loop := rs1.in_loop
      let rs2 ← Resolver.visit_stmt {rs1 with in_loop := true} block
      pure {rs2 with in_loop := prev_in_loop}

/-- resolver.rs resolve: visit each statement in order. -/
def Resolver.resolve (rs : Resolver) : List Stmt → Option Resolver
  | [] => pure rs
  | s :: rest => do
      let rs1 ← Resolver.visit_stmt rs s
      Resolver.resolve rs1 rest

/-- resolver.rs visit_expr on the class-free fragment. -/
def Resolver.visit_expr (rs : Resolver) : Expr → Option Resolver
  | .Array exprs => Resolver.visit_exprs rs exprs
  | .Assign varTok _ value => do
      let rs1 ← Resolver.visit_expr rs value
      pure (rs1.resolve_local varTok varTok.lexeme)
  | .Binary expr1 _ expr2 => do
      let rs1 ← Resolver.visit_expr rs expr1
      Resolver.visit_expr rs1 expr2
  | .Call callee _ args => do
      let rs1 ← Resolver.visit_expr rs callee
      Resolver.visit_exprs rs1 args
  | .Dictionary pairs => Resolver.visit_pairs rs pairs
  | .Grouping expr => Resolver.visit_expr rs expr
  | .IfExpr condition then_branch else_branch => do
      let rs1 ← Resolver.visit_expr rs condition
      let rs2 ← Resolver.visit_stmt rs1 then_branch
      Resolver.visit_stmt rs2 else_branch
  | .IndexGet expr index => do
      let rs1 ← Resolver.visit_expr rs expr
      Resolver.visit_expr rs1 index
  | .IndexSet expr index value => do
      let rs1 ← Resolver.visit_expr rs expr
      let rs2 ← Resolver.visit_expr rs1 index
      Resolver.visit_expr rs2 value
  | .Lambda params body => Resolver.visit_function rs params body .Function
  | .Literal _ => pure rs
  | .Tuple exprs => Resolver.visit_exprs rs exprs
  | .Unary _ expr => Resolver.visit_expr rs expr
  | .Variable varTok =>
      if rs.getScope varTok.lexeme = some false then
        pure (rs.token_error varTok "Cannot use a variable in its own initializer.")
      else pure (rs.resolve_local varTok varTok.lexeme)

/-- Element loop of visit_expr for Array/Tuple elements and Call args. -/
def Resolver.visit_exprs (rs : Resolver) : List Expr → Option Resolver
  | [] => pure rs
  | e :: rest => do
      let rs1 ← Resolver.visit_expr rs e
      Resolver.visit_exprs rs1 rest

/-- Key-value loop of visit_expr for Dictionary literals. -/
def Resolver.visit_pairs (rs : Resolver) : List (Expr × Expr) → Option Resolver
  | [] => pure rs
  | (key, value) :: rest => do
      let rs1 ← Resolver.visit_expr rs key
      let rs2 ← Resolver.visit_expr rs1 value
      Resolver.visit_pairs rs2 rest

/-- resolver.rs visit_function: set the function context, clear the loop
flag, open a scope defining the parameters, resolve the body statements
directly (the body block shares the parameter scope), then restore. -/
def Resolver.visit_function (rs : Resolver) (params : List Token) (body : Stmt)
    (function_type : FunctionType) : Option Resolver := do
  let enclosing_function := rs.current_function
  let rs1 := {rs with current_function := function_type}
  let prev_in_loop := rs1.in_loop
  let rs2 := {rs1 with in_loop := false}
  let rs3 := params.foldl (fun r p => (r.declare p).define p) rs2.begin_scope
  let rs4 ← match body with
    | .Block stmts => Resolver.resolve rs3 stmts
    | _ => none
  let rs5 := rs4.end_scope
  pure {rs5 with in_loop := prev_in_loop, current_function := enclosing_function}

end

/-- The resolve step of Dove::run on already-parsed statements: resolve
from a fresh resolver over a fresh interpreter.  The program is
resolver-accepted when the error list of the result is empty. -/
def resolve_program (stmts : List Stmt) : Option Resolver :=
  Resolver.resolve Resolver.init stmts

/-! Theorems.  Each claim of the specification review is settled by one
named theorem below (with a witness or counterexample where the rules
of the development require one). -/

/-- C1: the dictionary-key checks.  The spec says a Number key is
accepted exactly when its fractional part is zero and stored as the
corresponding integer key.  The code inverts the guard at every
insertion site: a dictionary literal with the integer key 2 is rejected
with the dictionary-key error while the non-integer key 2.5 is accepted
and truncated to the integer key 2; the Dictionary branch of IndexSet
rejects the integer index 2 and accepts 2.5; and the dict remove
built-in likewise rejects the integer 2 and removes under the truncated
key for 2.5.  This contradicts the code's own error messages ("Only
String and Integer can be used as dictionary key.", "Expected a string
or an integer key."), so the claim is right and the code is wrong. -/
theorem dict_key_fract_check_inverted :
    (visit_expr 5 [] initState
        (.Dictionary [(.Literal (.Number (F64.ofInt 2)), .Literal (.String "a"))])
      = .intr (.Error ⟨.Unspecified,
          "Only String and Integer can be used as dictionary key."⟩) initState)
  ∧ (visit_expr 5 [] initState
        (.Dictionary [(.Literal (.Number ⟨5, 2⟩), .Literal (.String "a"))])
      = .ok (.Dictionary [(.NumberKey 2, .String "a")]) initState)
  ∧ (visit_expr 5 [] initState
        (.IndexSet (.Literal (.Dictionary [])) (.Literal (.Number (F64.ofInt 2)))
          (.Literal (.String "a")))
      = .intr (.Error ⟨.Unspecified, "Index must be an integer/string."⟩) initState)
  ∧ (visit_expr 5 [] initState
        (.IndexSet (.Literal (.Dictionary [])) (.Literal (.Number ⟨5, 2⟩))
          (.Literal (.String "a")))
      = .ok .Nil initState)
  ∧ (dict_remove [(.NumberKey 2, .String "x")] (.Number (F64.ofInt 2))
      = .error ⟨.Unspecified, "Expected a string or an integer key."⟩)
  ∧ (dict_remove [(.NumberKey 2, .String "x")] (.Number ⟨5, 2⟩)
      = .ok (.String "x", [])) :=
  ⟨rfl, rfl, rfl, rfl, rfl, rfl⟩

/-- C2 counterexample: equality does not terminate with a Boolean on
every pair of runtime values.  With a Function as the left operand,
is_equal hits the catch-all panic arm of the source (none in the
embedding), and the evaluation of the corresponding equality expression
is a host panic rather than a Boolean. -/
theorem is_equal_panics_on_function_operand :
    is_equal (.Function 0) .Nil = none
  ∧ visit_expr 3 [] initState
      (.Binary (.Literal (.Function 0)) ⟨.EQUAL_EQUAL, "==", 1⟩ (.Literal .Nil))
      = .panic :=
  ⟨rfl, rfl⟩

theorem is_equal_elems_isSome (xs : List Literals) (ys : List Literals)
    (h : ∀ x ∈ xs, ∀ b, (is_equal x b).isSome = true) :
    (is_equal_elems xs ys).isSome = true := by
  induction xs generalizing ys with
  | nil => simp [is_equal_elems]
  | cons x xtail ih =>
      cases ys with
      | nil => simp [is_equal_elems]
      | cons y ytail =>
          have hx := h x (List.mem_cons_self x xtail) y
          cases hval : is_equal x y with
          | none => rw [hval] at hx; simp at hx
          | some b =>
              have ht : ∀ z ∈ xtail, ∀ c, (is_equal z c).isSome = true :=
                fun z hz c => h z (List.mem_cons_of_mem x hz) c
              cases b <;>
                simp [is_equal_elems, hval, Option.bind, ih ytail ht]

theorem is_equal_entries_isSome (xs : List (DictKey × Literals))
    (ys : List (DictKey × Literals))
    (h : ∀ p ∈ xs, ∀ b, (is_equal p.snd b).isSome = true) :
    (is_equal_entries xs ys).isSome = true := by
  induction xs with
  | nil => simp [is_equal_entries]
  | cons p ptail ih =>
      obtain ⟨k, v⟩ := p
      cases hget : alGet ys k with
      | none => simp [is_equal_entries, hget]
      | some w =>
          have hv := h (k, v) (List.mem_cons_self (k, v) ptail) w
          cases hval : is_equal v w with
          | none => rw [hval] at hv; simp at hv
          | some b =>
              have ht : ∀ q ∈ ptail, ∀ c, (is_equal q.snd c).isSome = true :=
                fun q hq c => h q (List.mem_cons_of_mem (k, v) hq) c
              cases b <;>
                simp [is_equal_entries, hget, hval, Option.bind, ih ht]

mutual

theorem is_equal_total (a : Literals) (h : func_free a = true) (b : Literals) :
    (is_equal a b).isSome = true :=
  match a, h with
  | .Array elems, h => by
      cases b <;> simp [is_equal]
      case Array other =>
        split
        · exact is_equal_elems_isSome elems other
            (is_equal_total_list elems (by simpa [func_free] using h))
        · rfl
  | .Dictionary entries, h => by
      cases b <;> simp [is_equal]
      case Dictionary other =>
        split
        · exact is_equal_entries_isSome entries other
            (fun p hp c => is_equal_total_entries entries
              (by simpa [func_free] using h) p hp c)
        · rfl
  | .String s, _ => by cases b <;> simp [is_equal]
  | .Tuple elems, h => by
      cases b <;> simp [is_equal]
      case Tuple other =>
        split
        · exact is_equal_elems_isSome elems other
            (is_equal_total_list elems (by simpa [func_free] using h))
        · rfl
  | .Number n, _ => by cases b <;> simp [is_equal]
  | .Boolean x, _ => by cases b <;> simp [is_equal]
  | .Nil, _ => by cases b <;> simp [is_equal]

theorem is_equal_total_list (xs : List Literals) (h : func_free_list xs = true) :
    ∀ x ∈ xs, ∀ b, (is_equal x b).isSome = true :=
  match xs, h with
  | [], _ => by intro x hx; simp at hx
  | y :: ytail, h => by
      intro x hx b
      rcases List.mem_cons.mp hx with hx | hx
      · subst hx
        exact is_equal_total x (by simp [func_free_list] at h; exact h.1) b
      · exact is_equal_total_list ytail
          (by simp [func_free_list] at h; exact h.2) x hx b

theorem is_equal_total_entries (xs : List (DictKey × Literals))
    (h : func_free_entries xs = true) :
    ∀ p ∈ xs, ∀ b, (is_equal p.snd b).isSome = true :=
  match xs, h with
  | [], _ => by intro p hp; simp at hp
  | (k, v) :: ptail, h => by
      intro p hp b
      rcases List.mem_cons.mp hp with hp | hp
      · subst hp
        exact is_equal_total v (by simp [func_free_entries] at h; exact h.1) b
      · exact is_equal_total_entries ptail
          (by simp [func_free_entries] at h; exact h.2) p hp b

end

/-- C2 (amended): equality as implemented terminates with a Boolean for
every pair whose left operand is free of Function values at the
positions the comparison recurses into (Class and Instance are outside
the fragment): is_equal is some Boolean there, values of different
variants compare as false, the evaluator turns those Booleans into the
value of an EQUAL_EQUAL expression, and BANG_EQUAL is its negation;
but a Function left operand panics the host instead of yielding false
(see the counterexample). -/
theorem is_equal_total_on_func_free :
    (∀ a b : Literals, func_free a = true → (is_equal a b).isSome = true)
  ∧ (∀ a b : Literals, func_free a = true → a.type_name ≠ b.type_name →
      is_equal a b = some false)
  ∧ (∀ (fuel : Nat) (ctx : LocalsMap) (σ : State) (l r : Literals) (b : Bool) (tok : Token),
      tok.token_type = .EQUAL_EQUAL → is_equal l r = some b →
      visit_expr (fuel + 2) ctx σ (.Binary (.Literal l) tok (.Literal r))
        = .ok (.Boolean b) σ)
  ∧ (∀ (fuel : Nat) (ctx : LocalsMap) (σ : State) (l r : Literals) (b : Bool) (tok : Token),
      tok.token_type = .BANG_EQUAL → is_equal l r = some b →
      visit_expr (fuel + 2) ctx σ (.Binary (.Literal l) tok (.Literal r))
        = .ok (.Boolean (!b)) σ) := by
  refine ⟨fun a b h => is_equal_total a h b, ?_, ?_, ?_⟩
  · intro a b h hne
    cases a <;> cases b <;>
      first
        | rfl
        | (exact absurd rfl hne)
        | (simp [func_free] at h)
  · intro fuel ctx σ l r b tok htok hval
    obtain ⟨tt, lex, ln⟩ := tok
    simp only [Token.token_type] at htok
    subst htok
    simp [visit_expr, EvalRes.bind, hval]
  · intro fuel ctx σ l r b tok htok hval
    obtain ⟨tt, lex, ln⟩ := tok
    simp only [Token.token_type] at htok
    subst htok
    simp [visit_expr, EvalRes.bind, hval]

/-- C2 witness: the amended theorem applied at concrete inputs — two
function-free values of different variants compare to false and the
evaluator yields the Boolean results of both equality operators. -/
theorem is_equal_total_on_func_free_witness :
    (is_equal (.Number (F64.ofInt 1)) (.String "x")).isSome = true
  ∧ is_equal (.Number (F64.ofInt 1)) (.String "x") = some false
  ∧ visit_expr 2 [] initState
      (.Binary (.Literal (.Number (F64.ofInt 1))) ⟨.EQUAL_EQUAL, "==", 1⟩
        (.Literal (.String "x")))
      = .ok (.Boolean false) initState
  ∧ visit_expr 2 [] initState
      (.Binary (.Literal (.Number (F64.ofInt 1))) ⟨.BANG_EQUAL, "!=", 1⟩
        (.Literal (.String "x")))
      = .ok (.Boolean true) initState :=
  ⟨is_equal_total_on_func_free.1 (.Number (F64.ofInt 1)) (.String "x") rfl,
   is_equal_total_on_func_free.2.1 (.Number (F64.ofInt 1)) (.String "x") rfl
     (by decide),
   is_equal_total_on_func_free.2.2.1 0 [] initState (.Number (F64.ofInt 1))
     (.String "x") false ⟨.EQUAL_EQUAL, "==", 1⟩ rfl rfl,
   is_equal_total_on_func_free.2.2.2 0 [] initState (.Number (F64.ofInt 1))
     (.String "x") false ⟨.BANG_EQUAL, "!=", 1⟩ rfl rfl⟩

/-- C3 counterexample: the and operator does not short-circuit.  With a
falsy left operand and a right operand that raises a runtime error (an
undefined variable), the whole expression evaluates to that error, so
the right operand was evaluated. -/
theorem and_operator_does_not_short_circuit :
    visit_expr 2 [] initState
      (.Binary (.Literal (.Boolean false)) ⟨.AND, "and", 1⟩
        (.Variable ⟨.IDENTIFIER, "x", 1⟩))
      = .intr (.Error ⟨.Token ⟨.IDENTIFIER, "x", 1⟩,
          "Variable 'x' not found in scope."⟩) initState
  ∧ is_truthy (.Boolean false) = false :=
  ⟨rfl, rfl⟩

/-- C3 (amended): a binary and always evaluates both operands — there is
no short-circuiting.  Whatever the left operand evaluated to (truthy or
falsy), an interrupt (for example a runtime error) produced by the right
operand becomes the result of the whole expression. -/
theorem and_operator_evaluates_right_operand :
    ∀ (fuel : Nat) (ctx : LocalsMap) (σ σ1 σ2 : State) (left right : Expr)
      (tok : Token) (left_val : Literals) (i : Interrupt),
      tok.token_type = .AND →
      visit_expr fuel ctx σ left = .ok left_val σ1 →
      visit_expr fuel ctx σ1 right = .intr i σ2 →
      visit_expr (fuel + 1) ctx σ (.Binary left tok right) = .intr i σ2 := by
  intro fuel ctx σ σ1 σ2 left right tok left_val i htok hL hR
  simp [visit_expr, hL, hR, EvalRes.bind]

/-- C3 witness: the amended theorem applied at a falsy left operand and
an erroring right operand. -/
theorem and_operator_evaluates_right_operand_witness :
    visit_expr 2 [] initState
      (.Binary (.Literal (.Boolean false)) ⟨.AND, "and", 1⟩
        (.Variable ⟨.IDENTIFIER, "y", 1⟩))
      = .intr (.Error ⟨.Token ⟨.IDENTIFIER, "y", 1⟩,
          "Variable 'y' not found in scope."⟩) initState :=
  and_operator_evaluates_right_operand 1 [] initState initState initState
    (.Literal (.Boolean false)) (.Variable ⟨.IDENTIFIER, "y", 1⟩)
    ⟨.AND, "and", 1⟩ (.Boolean false)
    (.Error ⟨.Token ⟨.IDENTIFIER, "y", 1⟩, "Variable 'y' not found in scope."⟩)
    rfl rfl rfl

/-- C4: for every pair of operand values, a binary and yields
Boolean(is_truthy l && is_truthy r) and a binary or yields
Boolean(is_truthy l || is_truthy r) — always a Boolean, never one of
the operands — and is_truthy is total with exactly Nil and
Boolean(false) falsy. -/
theorem logical_ops_return_boolean_of_truthiness :
    (∀ (fuel : Nat) (ctx : LocalsMap) (σ : State) (l r : Literals) (tok : Token),
      tok.token_type = .AND →
      visit_expr (fuel + 2) ctx σ (.Binary (.Literal l) tok (.Literal r))
        = .ok (.Boolean (is_truthy l && is_truthy r)) σ)
  ∧ (∀ (fuel : Nat) (ctx : LocalsMap) (σ : State) (l r : Literals) (tok : Token),
      tok.token_type = .OR →
      visit_expr (fuel + 2) ctx σ (.Binary (.Literal l) tok (.Literal r))
        = .ok (.Boolean (is_truthy l || is_truthy r)) σ)
  ∧ (∀ v : Literals, is_truthy v = false ↔ v = .Nil ∨ v = .Boolean false) := by
  refine ⟨?_, ?_, ?_⟩
  · intro fuel ctx σ l r tok htok
    obtain ⟨tt, lex, ln⟩ := tok
    simp only [Token.token_type] at htok
    subst htok
    simp [visit_expr, EvalRes.bind]
  · intro fuel ctx σ l r tok htok
    obtain ⟨tt, lex, ln⟩ := tok
    simp only [Token.token_type] at htok
    subst htok
    simp [visit_expr, EvalRes.bind]
  · intro v
    cases v <;> simp [is_truthy]

/-- C4 witness: and of a truthy Number and Nil is Boolean(false), or of
Nil and a truthy Number is Boolean(true) — Booleans, not operands. -/
theorem logical_ops_return_boolean_of_truthiness_witness :
    visit_expr 2 [] initState
      (.Binary (.Literal (.Number (F64.ofInt 1))) ⟨.AND, "and", 1⟩ (.Literal .Nil))
      = .ok (.Boolean false) initState
  ∧ visit_expr 2 [] initState
      (.Binary (.Literal .Nil) ⟨.OR, "or", 1⟩ (.Literal (.Number (F64.ofInt 1))))
      = .ok (.Boolean true) initState
  ∧ (is_truthy (.String "") = false ↔ (Literals.String "" = .Nil ∨ Literals.String "" = .Boolean false)) :=
  ⟨logical_ops_return_boolean_of_truthiness.1 0 [] initState
      (.Number (F64.ofInt 1)) .Nil ⟨.AND, "and", 1⟩ rfl,
   logical_ops_return_boolean_of_truthiness.2.1 0 [] initState
      .Nil (.Number (F64.ofInt 1)) ⟨.OR, "or", 1⟩ rfl,
   logical_ops_return_boolean_of_truthiness.2.2 (.String "")⟩

/-- C5: implicit return and the Return interrupt.  When the last
statement of the evaluated block is an Expression, all prior statements
run first and the expression's value is the result; otherwise the whole
block runs and the result is Nil; and a function call turns a Return(v)
interrupt raised anywhere in the body into the call value v (an Ok body
value passes through unchanged). -/
theorem implicit_return_and_return_interrupt :
    (∀ (fuel : Nat) (ctx : LocalsMap) (σ σ1 σ2 : State) (stmts : List Stmt)
       (e : Expr) (env : Environment) (v : Literals),
      stmts.getLast? = some (.Expression e) →
      run_stmts fuel ctx {(σ.alloc env).snd with current := (σ.alloc env).fst}
        stmts.dropLast = .ok () σ1 →
      visit_expr fuel ctx σ1 e = .ok v σ2 →
      execute_implicit_return (fuel + 1) ctx σ stmts env
        = .ok v {σ2 with current := σ.current})
  ∧ (∀ (fuel : Nat) (ctx : LocalsMap) (σ σ1 : State) (stmts : List Stmt)
       (env : Environment),
      (∀ e, stmts.getLast? ≠ some (.Expression e)) →
      execute_block fuel ctx σ stmts env = .ok () σ1 →
      execute_implicit_return (fuel + 1) ctx σ stmts env = .ok .Nil σ1)
  ∧ (∀ (fuel : Nat) (ctx : LocalsMap) (σ σ1 : State) (f : DoveFunction)
       (args : List Literals) (stmts : List Stmt) (env : Environment) (v : Literals),
      f.body = .Block stmts →
      bind_params f.params args ⟨some f.closure, []⟩ = some env →
      execute_implicit_return fuel ctx σ stmts env = .intr (.Return v) σ1 →
      function_call (fuel + 1) ctx σ f args = .ok v σ1)
  ∧ (∀ (fuel : Nat) (ctx : LocalsMap) (σ σ1 : State) (f : DoveFunction)
       (args : List Literals) (stmts : List Stmt) (env : Environment) (v : Literals),
      f.body = .Block stmts →
      bind_params f.params args ⟨some f.closure, []⟩ = some env →
      execute_implicit_return fuel ctx σ stmts env = .ok v σ1 →
      function_call (fuel + 1) ctx σ f args = .ok v σ1) := by
  refine ⟨?_, ?_, ?_, ?_⟩
  · intro fuel ctx σ σ1 σ2 stmts e env v hlast hrun hev
    simp [execute_implicit_return, hlast, hrun, hev]
  · intro fuel ctx σ σ1 stmts env h hblock
    cases hl : stmts.getLast? with
    | none => simp [execute_implicit_return, hl, hblock, EvalRes.bind]
    | some s =>
        cases s <;>
          first
            | (exact absurd hl (h _))
            | simp [execute_implicit_return, hl, hblock, EvalRes.bind]
  · intro fuel ctx σ σ1 f args stmts env v hbody hbind hres
    simp [function_call, hbody, hbind, hres]
  · intro fuel ctx σ σ1 f args stmts env v hbody hbind hres
    simp [function_call, hbody, hbind, hres]

/-- C5 witness: the theorem applied at concrete bodies — a body ending
in the expression 5 yields 5; an empty body yields Nil; a body whose
only statement is return 7 yields 7 through the Return interrupt; a
body whose implicit-return evaluation succeeds passes its value through. -/
theorem implicit_return_and_return_interrupt_witness :
    execute_implicit_return 2 [] initState
      [.Expression (.Literal (.Number (F64.ofInt 5)))] ⟨some 0, []⟩
      = .ok (.Number (F64.ofInt 5))
          {(initState.alloc ⟨some 0, []⟩).snd with current := 0}
  ∧ execute_implicit_return 3 [] initState ([] : List Stmt) ⟨some 0, []⟩
      = .ok .Nil {(initState.alloc ⟨some 0, []⟩).snd with current := 0}
  ∧ function_call 6 [] initState
      ⟨[], .Block [.Return ⟨.RETURN, "return", 1⟩ (some (.Literal (.Number (F64.ofInt 7))))], 0⟩ []
      = .ok (.Number (F64.ofInt 7))
          ⟨[⟨none, []⟩, ⟨some 0, []⟩], [], 0, 0, [], false⟩
  ∧ function_call 3 [] initState
      ⟨[], .Block [.Expression (.Literal (.Number (F64.ofInt 9)))], 0⟩ []
      = .ok (.Number (F64.ofInt 9))
          ⟨[⟨none, []⟩, ⟨some 0, []⟩], [], 0, 0, [], false⟩ :=
  ⟨implicit_return_and_return_interrupt.1 1 [] initState
      {(initState.alloc ⟨some 0, []⟩).snd with current := 1}
      {(initState.alloc ⟨some 0, []⟩).snd with current := 1}
      [.Expression (.Literal (.Number (F64.ofInt 5)))]
      (.Literal (.Number (F64.ofInt 5))) ⟨some 0, []⟩ (.Number (F64.ofInt 5))
      rfl rfl rfl,
   implicit_return_and_return_interrupt.2.1 2 [] initState
      {(initState.alloc ⟨some 0, []⟩).snd with current := 0}
      ([] : List Stmt) ⟨some 0, []⟩ (fun _ h => Option.noConfusion h) rfl,
   implicit_return_and_return_interrupt.2.2.1 5 [] initState
      ⟨[⟨none, []⟩, ⟨some 0, []⟩], [], 0, 0, [], false⟩
      ⟨[], .Block [.Return ⟨.RETURN, "return", 1⟩ (some (.Literal (.Number (F64.ofInt 7))))], 0⟩
      [] [.Return ⟨.RETURN, "return", 1⟩ (some (.Literal (.Number (F64.ofInt 7))))]
      ⟨some 0, []⟩ (.Number (F64.ofInt 7)) rfl rfl rfl,
   implicit_return_and_return_interrupt.2.2.2 2 [] initState
      ⟨[⟨none, []⟩, ⟨some 0, []⟩], [], 0, 0, [], false⟩
      ⟨[], .Block [.Expression (.Literal (.Number (F64.ofInt 9)))], 0⟩
      [] [.Expression (.Literal (.Number (F64.ofInt 9)))]
      ⟨some 0, []⟩ (.Number (F64.ofInt 9)) rfl rfl rfl⟩

/-- C7 counterexample: a Break interrupt reaching the top level of
interpret is not turned into a runtime error with the message
"Unexpected break/continue statement."; it is sent to the output sink
as "Unexpected interrupt: Break" and the runtime-error flag stays
false. -/
theorem top_level_interrupt_not_runtime_error :
    interpret 3 [] initState [.Break ⟨.BREAK, "break", 1⟩]
      = .done {initState with output := [.error "Unexpected interrupt: Break"]}
  ∧ ({initState with output := [.error "Unexpected interrupt: Break"]}).had_runtime_error
      = false
  ∧ "Unexpected interrupt: Break" ≠ "Unexpected break/continue statement." :=
  ⟨rfl, rfl, by decide⟩

/-- C7 (amended): a Break or Continue interrupt crossing a
function-call boundary becomes a runtime error with exactly the message
"Unexpected break/continue statement." (a Return crossing that boundary
is the call's value, not an error); but an interrupt that reaches the
top level of interpret is reported through the output sink as
"Unexpected interrupt: ..." and is not recorded as a runtime error. -/
theorem interrupt_escape_handling :
    (∀ (fuel : Nat) (ctx : LocalsMap) (σ σ1 : State) (f : DoveFunction)
       (args : List Literals) (stmts : List Stmt) (env : Environment),
      f.body = .Block stmts →
      bind_params f.params args ⟨some f.closure, []⟩ = some env →
      execute_implicit_return fuel ctx σ stmts env = .intr .Break σ1 →
      function_call (fuel + 1) ctx σ f args
        = .intr (.Error ⟨.Unspecified, "Unexpected break/continue statement."⟩) σ1)
  ∧ (∀ (fuel : Nat) (ctx : LocalsMap) (σ σ1 : State) (f : DoveFunction)
       (args : List Literals) (stmts : List Stmt) (env : Environment),
      f.body = .Block stmts →
      bind_params f.params args ⟨some f.closure, []⟩ = some env →
      execute_implicit_return fuel ctx σ stmts env = .intr .Continue σ1 →
      function_call (fuel + 1) ctx σ f args
        = .intr (.Error ⟨.Unspecified, "Unexpected break/continue statement."⟩) σ1)
  ∧ (∀ (fuel : Nat) (ctx : LocalsMap) (σ σ1 : State) (stmt : Stmt) (i : Interrupt),
      (i = .Break ∨ i = .Continue ∨ ∃ v, i = .Return v) →
      visit_stmt fuel ctx σ stmt = .intr i σ1 →
      interpret (fuel + 1) ctx σ [stmt]
        = .done {σ1 with output :=
            σ1.output ++ [OutMsg.error ("Unexpected interrupt: " ++ debug_interrupt i)]}
      ∧ ({σ1 with output :=
            σ1.output ++ [OutMsg.error ("Unexpected interrupt: " ++ debug_interrupt i)]} : State).had_runtime_error
          = σ1.had_runtime_error) := by
  refine ⟨?_, ?_, ?_⟩
  · intro fuel ctx σ σ1 f args stmts env hbody hbind hres
    simp [function_call, hbody, hbind, hres]
  · intro fuel ctx σ σ1 f args stmts env hbody hbind hres
    simp [function_call, hbody, hbind, hres]
  · intro fuel ctx σ σ1 stmt i hi hres
    rcases hi with hi | hi | ⟨v, hi⟩ <;> subst hi <;>
      exact ⟨by simp [interpret, hres], rfl⟩

/-- C7 witness: the amended theorem applied at a function whose body is
a single break statement, and at a top-level break statement. -/
theorem interrupt_escape_handling_witness :
    function_call 5 [] initState
      ⟨[], .Block [.Break ⟨.BREAK, "break", 1⟩], 0⟩ []
      = .intr (.Error ⟨.Unspecified, "Unexpected break/continue statement."⟩)
          ⟨[⟨none, []⟩, ⟨some 0, []⟩], [], 0, 0, [], false⟩
  ∧ interpret 2 [] initState [.Continue ⟨.CONTINUE, "continue", 1⟩]
      = .done {initState with output := [.error "Unexpected interrupt: Continue"]} :=
  ⟨interrupt_escape_handling.1 4 [] initState
      ⟨[⟨none, []⟩, ⟨some 0, []⟩], [], 0, 0, [], false⟩
      ⟨[], .Block [.Break ⟨.BREAK, "break", 1⟩], 0⟩ []
      [.Break ⟨.BREAK, "break", 1⟩] ⟨some 0, []⟩ rfl rfl rfl,
   (interrupt_escape_handling.2.2 1 [] initState initState
      (.Continue ⟨.CONTINUE, "continue", 1⟩) .Continue
      (Or.inr (Or.inl rfl)) rfl).1⟩

/-- C6 counterexample: the range operators work in i32.  First, the
casts saturate at the i32 bounds: the integer-valued operands
2147483648 and 2147483649 (exact in f64) both saturate to 2147483647 in
check_integer_operand, so 2147483648..2147483649 evaluates to the empty
tuple although |b - a| = 1 and the claim requires a tuple of length 1.
Second, the inclusive loop bound diff + 1 is an i32 addition that wraps:
for a = -2147483648 and b = -1 (both in i32 range, |b - a| = 2^31 - 1)
it wraps to i32::MIN, so a...b also evaluates to the empty tuple
although the claim requires length |b - a| + 1 = 2^31. -/
theorem range_saturates_at_i32_bounds :
    visit_expr 3 [] initState
      (.Binary (.Literal (.Number (F64.ofInt 2147483648))) ⟨.DOT_DOT, "..", 1⟩
        (.Literal (.Number (F64.ofInt 2147483649))))
      = .ok (.Tuple []) initState
  ∧ ((2147483649 : Int) - 2147483648).natAbs = 1
  ∧ (0 : Nat) ≠ 1
  ∧ visit_expr 3 [] initState
      (.Binary (.Literal (.Number (F64.ofInt (-2147483648)))) ⟨.DOT_DOT_DOT, "...", 1⟩
        (.Literal (.Number (F64.ofInt (-1)))))
      = .ok (.Tuple []) initState
  ∧ ((-1 : Int) - (-2147483648)).natAbs + 1 = 2147483648
  ∧ (0 : Nat) ≠ 2147483648 :=
  ⟨rfl, rfl, by decide, rfl, by decide, by decide⟩

theorem ofInt_fract_beq (n : Int) : (F64.ofInt n).fract.beq (F64.ofInt 0) = true := by
  simp [F64.fract, F64.sub, F64.ofInt, F64.trunc, F64.beq]

theorem i32cast_ofInt (n : Int) (h1 : -(2 ^ 31) ≤ n) (h2 : n ≤ 2 ^ 31 - 1) :
    i32cast (F64.ofInt n) = n := by
  simp only [i32cast, F64.trunc, F64.ofInt, Int.tdiv_one]
  omega

theorem wrap32_eq_self (x : Int) (h1 : -(2 ^ 31) ≤ x) (h2 : x < 2 ^ 31) :
    wrap32 x = x := by
  simp only [wrap32]
  omega

theorem absWrap32_eq_natAbs (x : Int) (h : -(2 ^ 31) < x) :
    absWrap32 x = (x.natAbs : Int) := by
  simp only [absWrap32, beq_iff_eq]
  split
  · omega
  · rfl

theorem rangeValues_no_wrap (a step : Int) (count : Nat)
    (h : ∀ i : Nat, i < count → -(2 ^ 31) ≤ a + (i : Int) * step ∧ a + (i : Int) * step < 2 ^ 31) :
    rangeValues a step count
      = (List.range count).map (fun (i : Nat) => .Number (F64.ofInt (a + (i : Int) * step))) := by
  unfold rangeValues
  apply List.map_congr_left
  intro i hi
  rw [wrap32_eq_self (a + (i : Int) * step) (h i (List.mem_range.mp hi)).1
    (h i (List.mem_range.mp hi)).2]

/-- C6 (amended): for integer-valued Numbers a and b that lie within the
i32 range and whose difference also fits in i32, a..b evaluates to the
tuple of integer Numbers a + i * step for i below |b - a| with step +1
when b >= a and -1 otherwise (length |b - a|, exclusive of b); for
|b - a| additionally below 2^31 - 1 (so that the inclusive loop bound
|b - a| + 1 also fits in i32), a...b evaluates to the same tuple with
one more element (length |b - a| + 1, ending exactly at b); and either
operator applied to an operand that is not an integer-valued Number is
the two-integers runtime error.  Outside those bounds the saturating
i32 casts and the wrapping i32 increment of the inclusive bound change
the result (see the counterexample). -/
theorem range_semantics_within_i32 :
    (∀ (fuel : Nat) (ctx : LocalsMap) (σ : State) (a b : Int) (tok : Token),
      tok.token_type = .DOT_DOT →
      -(2 ^ 31) ≤ a → a ≤ 2 ^ 31 - 1 → -(2 ^ 31) ≤ b → b ≤ 2 ^ 31 - 1 →
      -(2 ^ 31) < b - a → b - a < 2 ^ 31 →
      visit_expr (fuel + 2) ctx σ
        (.Binary (.Literal (.Number (F64.ofInt a))) tok (.Literal (.Number (F64.ofInt b))))
        = .ok (.Tuple ((List.range (b - a).natAbs).map
            (fun (i : Nat) => .Number (F64.ofInt (a + (i : Int) * (if b ≥ a then 1 else -1)))))) σ)
  ∧ (∀ (fuel : Nat) (ctx : LocalsMap) (σ : State) (a b : Int) (tok : Token),
      tok.token_type = .DOT_DOT_DOT →
      -(2 ^ 31) ≤ a → a ≤ 2 ^ 31 - 1 → -(2 ^ 31) ≤ b → b ≤ 2 ^ 31 - 1 →
      -(2 ^ 31 - 1) < b - a → b - a < 2 ^ 31 - 1 →
      visit_expr (fuel + 2) ctx σ
        (.Binary (.Literal (.Number (F64.ofInt a))) tok (.Literal (.Number (F64.ofInt b))))
        = .ok (.Tuple ((List.range ((b - a).natAbs + 1)).map
            (fun (i : Nat) => .Number (F64.ofInt (a + (i : Int) * (if b ≥ a then 1 else -1)))))) σ)
  ∧ (∀ (n : Nat) (f : Nat → Literals), ((List.range n).map f).length = n)
  ∧ (∀ (a b : Int),
      ((List.range ((b - a).natAbs + 1)).map
          (fun (i : Nat) => Literals.Number (F64.ofInt (a + (i : Int) * (if b ≥ a then 1 else -1))))).getLast?
        = some (.Number (F64.ofInt (a + ((b - a).natAbs : Int) * (if b ≥ a then 1 else -1))))
      ∧ a + ((b - a).natAbs : Int) * (if b ≥ a then 1 else -1) = b)
  ∧ (∀ (fuel : Nat) (ctx : LocalsMap) (σ : State) (v w : Literals) (tok : Token),
      (tok.token_type = .DOT_DOT ∨ tok.token_type = .DOT_DOT_DOT) →
      (is_integer_number v = false ∨ is_integer_number w = false) →
      visit_expr (fuel + 2) ctx σ (.Binary (.Literal v) tok (.Literal w))
        = .intr (.Error ⟨.Token tok,
            "Operands of '" ++ tok.lexeme ++ "' must be two integers."⟩) σ) := by
  have hbound : ∀ (a b : Int), -(2 ^ 31) ≤ a → a ≤ 2 ^ 31 - 1 →
      -(2 ^ 31) ≤ b → b ≤ 2 ^ 31 - 1 → ∀ count : Nat, count ≤ (b - a).natAbs + 1 →
      ∀ i : Nat, i < count →
      -(2 ^ 31) ≤ a + (i : Int) * (if b ≥ a then 1 else -1)
        ∧ a + (i : Int) * (if b ≥ a then 1 else -1) < 2 ^ 31 := by
    intro a b ha1 ha2 hb1 hb2 count hcount i hi
    by_cases hab : b ≥ a <;> simp only [hab, if_true, if_false, reduceIte] <;>
      constructor <;> omega
  refine ⟨?_, ?_, ?_, ?_, ?_⟩
  · intro fuel ctx σ a b tok htok ha1 ha2 hb1 hb2 hd1 hd2
    obtain ⟨tt, lex, ln⟩ := tok
    simp only [Token.token_type] at htok
    subst htok
    have hcast : check_integer_operand ⟨.DOT_DOT, lex, ln⟩
        (.Number (F64.ofInt a)) (.Number (F64.ofInt b)) = .ok (a, b) := by
      simp [check_integer_operand, check_number_operand, ofInt_fract_beq,
        i32cast_ofInt a ha1 ha2, i32cast_ofInt b hb1 hb2]
    have hdiff : absWrap32 (wrap32 (b - a)) = ((b - a).natAbs : Int) := by
      rw [wrap32_eq_self (b - a) (by omega) (by omega),
        absWrap32_eq_natAbs (b - a) (by omega)]
    have hcount : (((b - a).natAbs : Int)).toNat = (b - a).natAbs := by omega
    simp only [visit_expr, EvalRes.bind, hcast, liftCheck, hdiff, hcount]
    rw [rangeValues_no_wrap a (if b ≥ a then 1 else -1) (b - a).natAbs
      (fun i hi => hbound a b ha1 ha2 hb1 hb2 (b - a).natAbs (by omega) i hi)]
  · intro fuel ctx σ a b tok htok ha1 ha2 hb1 hb2 hd1 hd2
    obtain ⟨tt, lex, ln⟩ := tok
    simp only [Token.token_type] at htok
    subst htok
    have hcast : check_integer_operand ⟨.DOT_DOT_DOT, lex, ln⟩
        (.Number (F64.ofInt a)) (.Number (F64.ofInt b)) = .ok (a, b) := by
      simp [check_integer_operand, check_number_operand, ofInt_fract_beq,
        i32cast_ofInt a ha1 ha2, i32cast_ofInt b hb1 hb2]
    have hdiff : absWrap32 (wrap32 (b - a)) = ((b - a).natAbs : Int) := by
      rw [wrap32_eq_self (b - a) (by omega) (by omega),
        absWrap32_eq_natAbs (b - a) (by omega)]
    have hwrap : wrap32 (((b - a).natAbs : Int) + 1) = ((b - a).natAbs : Int) + 1 :=
      wrap32_eq_self (((b - a).natAbs : Int) + 1) (by omega) (by omega)
    have hcount : (((b - a).natAbs : Int) + 1).toNat = (b - a).natAbs + 1 := by omega
    simp only [visit_expr, EvalRes.bind, hcast, liftCheck, hdiff, hwrap, hcount]
    rw [rangeValues_no_wrap a (if b ≥ a then 1 else -1) ((b - a).natAbs + 1)
      (fun i hi => hbound a b ha1 ha2 hb1 hb2 ((b - a).natAbs + 1) (by omega) i hi)]
  · intro n f
    simp
  · intro a b
    constructor
    · rw [List.range_succ, List.map_append]
      simp
    · by_cases hab : b ≥ a <;> simp only [hab, if_true, if_false, reduceIte] <;> omega
  · intro fuel ctx σ v w tok htok hint
    obtain ⟨tt, lex, ln⟩ := tok
    simp only [Token.token_type] at htok
    have herr : check_integer_operand ⟨tt, lex, ln⟩ v w
        = .error (.Error ⟨.Token ⟨tt, lex, ln⟩,
            "Operands of '" ++ lex ++ "' must be two integers."⟩) := by
      cases v <;> cases w <;>
        first
          | rfl
          | (rcases hint with h | h <;>
              simp only [is_integer_number] at h <;>
              simp [check_integer_operand, check_number_operand, h])
    rcases htok with htok | htok <;> subst htok <;>
      simp only [visit_expr, EvalRes.bind, herr, liftCheck]

/-- C6 witness: the amended theorem applied at concrete ranges — 2..5 is
the tuple (2, 3, 4) of length 3, 5...2 is the inclusive descending
tuple (5, 4, 3, 2) of length 4 ending at 2, and 2.5..3 is the
two-integers runtime error. -/
theorem range_semantics_within_i32_witness :
    visit_expr 3 [] initState
      (.Binary (.Literal (.Number (F64.ofInt 2))) ⟨.DOT_DOT, "..", 1⟩
        (.Literal (.Number (F64.ofInt 5))))
      = .ok (.Tuple ((List.range ((5 - 2 : Int)).natAbs).map
          (fun (i : Nat) => .Number (F64.ofInt (2 + (i : Int) * (if (5 : Int) ≥ 2 then 1 else -1)))))) initState
  ∧ visit_expr 3 [] initState
      (.Binary (.Literal (.Number (F64.ofInt 5))) ⟨.DOT_DOT_DOT, "...", 1⟩
        (.Literal (.Number (F64.ofInt 2))))
      = .ok (.Tuple ((List.range (((2 - 5 : Int)).natAbs + 1)).map
          (fun (i : Nat) => .Number (F64.ofInt (5 + (i : Int) * (if (2 : Int) ≥ 5 then 1 else -1)))))) initState
  ∧ visit_expr 3 [] initState
      (.Binary (.Literal (.Number ⟨5, 2⟩)) ⟨.DOT_DOT, "..", 1⟩
        (.Literal (.Number (F64.ofInt 3))))
      = .intr (.Error ⟨.Token ⟨.DOT_DOT, "..", 1⟩,
          "Operands of '..' must be two integers."⟩) initState :=
  ⟨range_semantics_within_i32.1 1 [] initState 2 5 ⟨.DOT_DOT, "..", 1⟩ rfl
      (by decide) (by decide) (by decide) (by decide) (by decide) (by decide),
   range_semantics_within_i32.2.1 1 [] initState 5 2 ⟨.DOT_DOT_DOT, "...", 1⟩ rfl
      (by decide) (by decide) (by decide) (by decide) (by decide) (by decide),
   range_semantics_within_i32.2.2.2.2 1 [] initState (.Number ⟨5, 2⟩)
      (.Number (F64.ofInt 3)) ⟨.DOT_DOT, "..", 1⟩ (Or.inl rfl)
      (Or.inl (by decide))⟩

theorem alGet_alInsert_self {α β : Type} [BEq α] [LawfulBEq α]
    (l : List (α × β)) (k : α) (v : β) : alGet (alInsert l k v) k = some v := by
  induction l with
  | nil => simp [alGet, alInsert]
  | cons p rest ih =>
      obtain ⟨pk, pv⟩ := p
      by_cases h : pk == k
      · simp [alGet, alInsert, h]
      · simp [alGet, alInsert, h, ih]

theorem alInsert_keys_of_isSome {α β : Type} [BEq α] [LawfulBEq α]
    (l : List (α × β)) (k : α) (v : β) (h : (alGet l k).isSome = true) :
    (alInsert l k v).map Prod.fst = l.map Prod.fst := by
  induction l with
  | nil => simp [alGet] at h
  | cons p rest ih =>
      obtain ⟨pk, pv⟩ := p
      by_cases hk : pk == k
      · simp [alInsert, hk]
      · simp [alGet, hk] at h
        simp [alInsert, hk, ih h]

theorem assign_at_preserves_frames (name : String) (v : Literals) :
    ∀ (d : Nat) (σ : State) (id : Nat) (j : Nat) (env : Environment),
    σ.getEnv? j = some env →
    ∃ env', ((assign_at σ id d name v).snd).getEnv? j = some env'
      ∧ env'.enclosing = env.enclosing
      ∧ env'.values.map Prod.fst = env.values.map Prod.fst := by
  intro d
  induction d with
  | zero =>
      intro σ id j env hj
      simp only [assign_at, State.assign]
      split
      next e hid =>
        split
        next hmem =>
          by_cases hji : j = id
          · subst hji
            have hlt : j < σ.envs.length := (List.getElem?_eq_some.mp hid).1
            have hee : env = e := by rw [hid] at hj; exact (Option.some_inj.mp hj).symm
            subst hee
            refine ⟨⟨env.enclosing, alInsert env.values name v⟩, ?_, rfl,
              alInsert_keys_of_isSome env.values name v hmem⟩
            simp only [State.setEnv, State.getEnv?]
            exact List.getElem?_set_eq_of_lt _ hlt
          · refine ⟨env, ?_, rfl, rfl⟩
            simp only [State.setEnv, State.getEnv?]
            rw [List.getElem?_set_ne (fun h => hji h.symm)]
            exact hj
        next hmem => exact ⟨env, hj, rfl, rfl⟩
      next hid => exact ⟨env, hj, rfl, rfl⟩
  | succ d ih =>
      intro σ id j env hj
      simp only [assign_at]
      split
      next e hid =>
        split
        next up henc => exact ih σ up j env hj
        next henc => exact ⟨env, hj, rfl, rfl⟩
      next hid => exact ⟨env, hj, rfl, rfl⟩

theorem assign_at_succeeds_iff (name : String) (v : Literals) :
    ∀ (d : Nat) (σ : State) (id : Nat),
    (assign_at σ id d name v).fst = true ↔
      ∃ env, frameAt? σ id d = some env ∧ (alGet env.values name).isSome = true := by
  intro d
  induction d with
  | zero =>
      intro σ id
      simp only [assign_at, State.assign, frameAt?]
      split
      next e hid =>
        by_cases hmem : (alGet e.values name).isSome
        · simp only [hmem, if_true, true_iff]
          exact ⟨e, hid, hmem⟩
        · simp only [hmem, if_false, Bool.false_eq_true, false_iff]
          rintro ⟨x, hx, hxmem⟩
          rw [hid] at hx
          rw [Option.some_inj.mp hx] at hmem
          exact hmem hxmem
      next hid =>
        simp only [Bool.false_eq_true, false_iff]
        rintro ⟨x, hx, _⟩
        rw [hid] at hx
        exact Option.noConfusion hx
  | succ d ih =>
      intro σ id
      simp only [assign_at, frameAt?]
      split
      next e hid =>
        split
        next up henc => exact ih σ up
        next henc => simp
      next hid => simp

theorem assign_at_writes (name : String) (v : Literals) :
    ∀ (d : Nat) (σ : State) (id : Nat),
    (assign_at σ id d name v).fst = true →
    get_at (assign_at σ id d name v).snd id d name = some v := by
  intro d
  induction d with
  | zero =>
      intro σ id h
      obtain ⟨env, hframe, hmem⟩ := (assign_at_succeeds_iff name v 0 σ id).mp h
      simp only [frameAt?, State.getEnv?] at hframe
      have hlt : id < σ.envs.length := (List.getElem?_eq_some.mp hframe).1
      simp only [assign_at, State.assign, State.getEnv?, hframe, hmem, if_true,
        get_at, State.get, State.setEnv]
      rw [List.getElem?_set_eq_of_lt _ hlt]
      exact alGet_alInsert_self env.values name v
  | succ d ih =>
      intro σ id h
      cases hid : σ.getEnv? id with
      | none => simp [assign_at, hid] at h
      | some e =>
          cases henc : e.enclosing with
          | none => simp [assign_at, hid, henc] at h
          | some up =>
              have h' : (assign_at σ up d name v).fst = true := by
                simpa [assign_at, hid, henc] using h
              have hsnd : (assign_at σ id (d + 1) name v).snd
                  = (assign_at σ up d name v).snd := by
                simp [assign_at, hid, henc]
              rw [hsnd]
              obtain ⟨e', he', henc', _⟩ :=
                assign_at_preserves_frames name v d σ up id e hid
              simp only [get_at, he', henc', henc]
              exact ih σ up h'

/-- C8: assignment never creates a binding.  assign_at writes the name
in the frame exactly d parent links up and reports success precisely
when the name already existed in that frame; every frame of the
resulting state keeps its key set (and parent link) unchanged; and the
Assign expression of the interpreter produces the not-found-in-scope
runtime error exactly when the target binding is absent (at the
recorded depth when the resolution table has one, in globals
otherwise), so let remains the only way to introduce a binding. -/
theorem assign_never_creates_binding :
    (∀ (σ : State) (id d : Nat) (name : String) (v : Literals),
      (assign_at σ id d name v).fst = true ↔
        ∃ env, frameAt? σ id d = some env ∧ (alGet env.values name).isSome = true)
  ∧ (∀ (σ : State) (id d : Nat) (name : String) (v : Literals) (j : Nat) (env : Environment),
      σ.getEnv? j = some env →
      ∃ env', ((assign_at σ id d name v).snd).getEnv? j = some env'
        ∧ env'.enclosing = env.enclosing
        ∧ env'.values.map Prod.fst = env.values.map Prod.fst)
  ∧ (∀ (σ : State) (id d : Nat) (name : String) (v : Literals),
      (assign_at σ id d name v).fst = true →
      get_at (assign_at σ id d name v).snd id d name = some v)
  ∧ (∀ (fuel : Nat) (ctx : LocalsMap) (σ σ1 : State) (name opTok : Token)
       (value : Expr) (v : Literals) (d : Nat),
      opTok.token_type = .EQUAL →
      visit_expr fuel ctx σ value = .ok v σ1 →
      get_local ctx name = some d →
      visit_expr (fuel + 1) ctx σ (.Assign name opTok value)
        = (if (assign_at σ1 σ1.current d name.lexeme v).fst
           then .ok v (assign_at σ1 σ1.current d name.lexeme v).snd
           else .intr (.Error ⟨.Token name,
             "Cannot assign value to '" ++ name.lexeme ++ "', as it is not found in scope."⟩)
             (assign_at σ1 σ1.current d name.lexeme v).snd))
  ∧ (∀ (fuel : Nat) (ctx : LocalsMap) (σ σ1 : State) (name opTok : Token)
       (value : Expr) (v : Literals),
      opTok.token_type = .EQUAL →
      visit_expr fuel ctx σ value = .ok v σ1 →
      get_local ctx name = none →
      visit_expr (fuel + 1) ctx σ (.Assign name opTok value)
        = (if (σ1.assign σ1.globals name.lexeme v).fst
           then .ok v (σ1.assign σ1.globals name.lexeme v).snd
           else .intr (.Error ⟨.Token name,
             "Cannot assign value to '" ++ name.lexeme ++ "', as it is not found in scope."⟩)
             (σ1.assign σ1.globals name.lexeme v).snd)) := by
  refine ⟨?_, ?_, ?_, ?_, ?_⟩
  · intro σ id d name v
    exact assign_at_succeeds_iff name v d σ id
  · intro σ id d name v j env hj
    exact assign_at_preserves_frames name v d σ id j env hj
  · intro σ id d name v h
    exact assign_at_writes name v d σ id h
  · intro fuel ctx σ σ1 name opTok value v d htok hval hloc
    obtain ⟨tt, lex, ln⟩ := opTok
    simp only [Token.token_type] at htok
    subst htok
    simp only [visit_expr, EvalRes.bind, hval, hloc]
  · intro fuel ctx σ σ1 name opTok value v htok hval hloc
    obtain ⟨tt, lex, ln⟩ := opTok
    simp only [Token.token_type] at htok
    subst htok
    simp only [visit_expr, EvalRes.bind, hval, hloc]

/-- C8 witness: the theorem applied on a two-frame chain — assigning x
one frame up from the current frame succeeds because the parent frame
binds x, the key sets of both frames are unchanged, the written value
is read back by get_at, and an assignment to an unbound global name
evaluates to the not-found runtime error. -/
theorem assign_never_creates_binding_witness :
    (assign_at ⟨[⟨none, [("x", .Nil)]⟩, ⟨some 0, []⟩], [], 0, 1, [], false⟩
        1 1 "x" (.Number (F64.ofInt 1))).fst = true
  ∧ get_at (assign_at ⟨[⟨none, [("x", .Nil)]⟩, ⟨some 0, []⟩], [], 0, 1, [], false⟩
        1 1 "x" (.Number (F64.ofInt 1))).snd 1 1 "x" = some (.Number (F64.ofInt 1))
  ∧ (∃ env', ((assign_at ⟨[⟨none, [("x", .Nil)]⟩, ⟨some 0, []⟩], [], 0, 1, [], false⟩
        1 1 "x" (.Number (F64.ofInt 1))).snd).getEnv? 0 = some env'
      ∧ env'.enclosing = none
      ∧ env'.values.map Prod.fst = ["x"])
  ∧ visit_expr 2 [] initState
      (.Assign ⟨.IDENTIFIER, "y", 1⟩ ⟨.EQUAL, "=", 1⟩ (.Literal .Nil))
      = (if ((initState.assign initState.globals "y" .Nil)).fst
         then .ok .Nil (initState.assign initState.globals "y" .Nil).snd
         else .intr (.Error ⟨.Token ⟨.IDENTIFIER, "y", 1⟩,
           "Cannot assign value to '" ++ "y" ++ "', as it is not found in scope."⟩)
           (initState.assign initState.globals "y" .Nil).snd) :=
  ⟨(assign_never_creates_binding.1
      ⟨[⟨none, [("x", .Nil)]⟩, ⟨some 0, []⟩], [], 0, 1, [], false⟩
      1 1 "x" (.Number (F64.ofInt 1))).mpr ⟨⟨none, [("x", .Nil)]⟩, rfl, rfl⟩,
   assign_never_creates_binding.2.2.1
      ⟨[⟨none, [("x", .Nil)]⟩, ⟨some 0, []⟩], [], 0, 1, [], false⟩
      1 1 "x" (.Number (F64.ofInt 1))
      ((assign_never_creates_binding.1
        ⟨[⟨none, [("x", .Nil)]⟩, ⟨some 0, []⟩], [], 0, 1, [], false⟩
        1 1 "x" (.Number (F64.ofInt 1))).mpr ⟨⟨none, [("x", .Nil)]⟩, rfl, rfl⟩),
   (fun ⟨env', h1, h2, h3⟩ => ⟨env', h1, h2, h3⟩)
     (assign_never_creates_binding.2.1
      ⟨[⟨none, [("x", .Nil)]⟩, ⟨some 0, []⟩], [], 0, 1, [], false⟩
      1 1 "x" (.Number (F64.ofInt 1)) 0 ⟨none, [("x", .Nil)]⟩ rfl),
   assign_never_creates_binding.2.2.2.2 1 [] initState initState
      ⟨.IDENTIFIER, "y", 1⟩ ⟨.EQUAL, "=", 1⟩ (.Literal .Nil) .Nil rfl rfl rfl⟩

/-- C9 counterexample: the resolution table is keyed by (line, lexeme),
so two distinct references that share both collide.  In the program

    let a = 99
    fun f() { [lambda a -> a, a] }
    print f()

the lambda's parameter reference a and the outer a on line 2 share the
key (2, "a").  The resolver accepts the program (no errors) and records
depth 0 for that key; at runtime the second read consults the entry,
reads depth 0 in the call frame of f where a is not bound, and raises
"Variable 'a' not found in scope." — although a is bound in globals —
so neither disjunct of the claimed invariant holds for that read. -/
theorem resolution_depth_collision_on_line_and_name :
    resolve_program
      [.Variable ⟨.IDENTIFIER, "a", 1⟩ (some (.Literal (.Number (F64.ofInt 99)))),
       .Function ⟨.IDENTIFIER, "f", 2⟩ [] (.Block [
         .Expression (.Array [
           .Lambda [⟨.IDENTIFIER, "a", 2⟩]
             (.Block [.Expression (.Variable ⟨.IDENTIFIER, "a", 2⟩)]),
           .Variable ⟨.IDENTIFIER, "a", 2⟩])]),
       .Print ⟨.PRINT, "print", 3⟩
         (.Call (.Variable ⟨.IDENTIFIER, "f", 3⟩) ⟨.RIGHT_PAREN, ")", 3⟩ [])]
      = some ⟨[], [((2, "a"), 0)], [], .None, false⟩
  ∧ interpret 20 [((2, "a"), 0)] initState
      [.Variable ⟨.IDENTIFIER, "a", 1⟩ (some (.Literal (.Number (F64.ofInt 99)))),
       .Function ⟨.IDENTIFIER, "f", 2⟩ [] (.Block [
         .Expression (.Array [
           .Lambda [⟨.IDENTIFIER, "a", 2⟩]
             (.Block [.Expression (.Variable ⟨.IDENTIFIER, "a", 2⟩)]),
           .Variable ⟨.IDENTIFIER, "a", 2⟩])]),
       .Print ⟨.PRINT, "print", 3⟩
         (.Call (.Variable ⟨.IDENTIFIER, "f", 3⟩) ⟨.RIGHT_PAREN, ")", 3⟩ [])]
      = .done
          ⟨[⟨none, [("a", .Number (F64.ofInt 99)), ("f", .Function 0)]⟩,
            ⟨some 0, []⟩],
           [⟨[], .Block [
               .Expression (.Array [
                 .Lambda [⟨.IDENTIFIER, "a", 2⟩]
                   (.Block [.Expression (.Variable ⟨.IDENTIFIER, "a", 2⟩)]),
                 .Variable ⟨.IDENTIFIER, "a", 2⟩])], 0⟩,
            ⟨[⟨.IDENTIFIER, "a", 2⟩],
             .Block [.Expression (.Variable ⟨.IDENTIFIER, "a", 2⟩)], 1⟩],
           0, 0,
           [.error "[line 2] Error at 'a': Variable 'a' not found in scope."],
           true⟩
  ∧ State.get
      ⟨[⟨none, [("a", .Number (F64.ofInt 99)), ("f", .Function 0)]⟩, ⟨some 0, []⟩],
       [], 0, 0, [], true⟩ 0 "a"
      = some (.Number (F64.ofInt 99)) :=
  ⟨rfl, rfl, rfl⟩

/-- C9 (amended): the two halves of the claimed invariant that the code
does satisfy.  resolve_local records exactly the index of the innermost
scope containing the name — scope_depth returns some d precisely when
scope d (innermost first) contains the name and no closer scope does,
and none precisely when no scope contains it (the reference is then
treated as global) — and at runtime a read with a recorded depth
consults exactly that depth with no fallback while a read with no entry
consults the globals frame.  The table key is (line, lexeme), so two
references sharing both can collide, and then a read may use the depth
recorded for the other reference and fail even though the name is bound
in globals (see the counterexample). -/
theorem resolution_table_discipline :
    (∀ (scopes : List (List (String × Bool))) (name : String) (d : Nat),
      scope_depth scopes name = some d ↔
        ((∃ scope, scopes[d]? = some scope ∧ (alGet scope name).isSome = true)
         ∧ ∀ j, j < d → ∀ scope, scopes[j]? = some scope →
             (alGet scope name).isSome = false))
  ∧ (∀ (scopes : List (List (String × Bool))) (name : String),
      scope_depth scopes name = none ↔
        ∀ scope ∈ scopes, (alGet scope name).isSome = false)
  ∧ (∀ (ctx : LocalsMap) (σ : State) (tok : Token) (d : Nat),
      get_local ctx tok = some d →
      lookup_variable ctx σ tok = get_at σ σ.current d tok.lexeme)
  ∧ (∀ (ctx : LocalsMap) (σ : State) (tok : Token),
      get_local ctx tok = none →
      lookup_variable ctx σ tok = σ.get σ.globals tok.lexeme) := by
  refine ⟨?_, ?_, ?_, ?_⟩
  · intro scopes name
    induction scopes with
    | nil =>
        intro d
        simp [scope_depth]
    | cons s rest ih =>
        intro d
        simp only [scope_depth]
        by_cases hs : (alGet s name).isSome = true
        · rw [if_pos hs]
          constructor
          · intro h
            have hd : d = 0 := (Option.some_inj.mp h).symm
            subst hd
            exact ⟨⟨s, by simp, hs⟩, fun j hj => absurd hj (Nat.not_lt_zero j)⟩
          · rintro ⟨⟨scope, hscope, hmem⟩, hmin⟩
            cases d with
            | zero => rfl
            | succ d =>
                have h0 := hmin 0 (Nat.succ_pos d) s (by simp)
                rw [h0] at hs
                exact absurd hs (by simp)
        · rw [if_neg hs]
          constructor
          · intro h
            obtain ⟨d', hd', hsum⟩ := Option.map_eq_some'.mp h
            subst hsum
            obtain ⟨⟨scope, hscope, hmem⟩, hmin⟩ := (ih d').mp hd'
            refine ⟨⟨scope, by simpa using hscope, hmem⟩, ?_⟩
            intro j hj sc hsc
            cases j with
            | zero =>
                have hss : sc = s := by
                  simp only [List.getElem?_cons_zero] at hsc
                  exact (Option.some_inj.mp hsc).symm
                subst hss
                simpa using hs
            | succ j =>
                exact hmin j (by omega) sc (by simpa using hsc)
          · rintro ⟨⟨scope, hscope, hmem⟩, hmin⟩
            cases d with
            | zero =>
                have hss : scope = s := by
                  simp only [List.getElem?_cons_zero] at hscope
                  exact (Option.some_inj.mp hscope).symm
                subst hss
                exact absurd hmem hs
            | succ d =>
                have hrest : scope_depth rest name = some d := by
                  refine (ih d).mpr ⟨⟨scope, by simpa using hscope, hmem⟩, ?_⟩
                  intro j hj sc hsc
                  exact hmin (j + 1) (by omega) sc (by simpa using hsc)
                rw [Option.map_eq_some']
                exact ⟨d, hrest, rfl⟩
  · intro scopes name
    induction scopes with
    | nil => simp [scope_depth]
    | cons s rest ih =>
        simp only [scope_depth]
        by_cases hs : (alGet s name).isSome = true
        · rw [if_pos hs]
          constructor
          · intro h
            exact Option.noConfusion h
          · intro h
            have h0 := h s (List.mem_cons_self s rest)
            rw [h0] at hs
            exact absurd hs (by simp)
        · rw [if_neg hs]
          rw [Option.map_eq_none', ih]
          constructor
          · intro h scope hmem
            rcases List.mem_cons.mp hmem with hm | hm
            · subst hm
              simpa using hs
            · exact h scope hm
          · intro h scope hmem
            exact h scope (List.mem_cons_of_mem s hmem)
  · intro ctx σ tok d h
    simp [lookup_variable, h]
  · intro ctx σ tok h
    simp [lookup_variable, h]

/-- C9 witness: the theorem applied at concrete inputs — with an inner
scope binding a and an outer one not, scope_depth records 0; with no
scope binding a it records nothing; a recorded depth of 0 on the key
(1, "x") makes the read consult depth 0 of the current frame, and a
missing entry makes it consult globals. -/
theorem resolution_table_discipline_witness :
    ((∃ scope, [[("a", true)], []][0]? = some scope
        ∧ (alGet scope "a").isSome = true)
     ∧ ∀ j, j < 0 → ∀ scope, ([[("a", true)], []] :
         List (List (String × Bool)))[j]? = some scope →
         (alGet scope "a").isSome = false)
  ∧ (∀ scope ∈ ([[("b", true)]] : List (List (String × Bool))),
      (alGet scope "a").isSome = false)
  ∧ lookup_variable [((1, "x"), 0)] initState ⟨.IDENTIFIER, "x", 1⟩
      = get_at initState initState.current 0 "x"
  ∧ lookup_variable [] initState ⟨.IDENTIFIER, "x", 1⟩
      = initState.get initState.globals "x" :=
  ⟨(resolution_table_discipline.1 [[("a", true)], []] "a" 0).mp rfl,
   (resolution_table_discipline.2.1 [[("b", true)]] "a").mp rfl,
   resolution_table_discipline.2.2.1 [((1, "x"), 0)] initState
     ⟨.IDENTIFIER, "x", 1⟩ 0 rfl,
   resolution_table_discipline.2.2.2 [] initState ⟨.IDENTIFIER, "x", 1⟩ rfl⟩

/-- C10: the interpreter calls .unwrap() on the sub-evaluation results
of dictionary-literal keys and values, of unary operands, and of while
conditions: an Error (or any other) interrupt there panics the host
process instead of propagating as a reportable runtime error, while the
same interrupt in another expression position (an array element)
propagates normally. -/
theorem unwrap_panics_in_dict_unary_while :
    (∀ (fuel : Nat) (ctx : LocalsMap) (σ σ1 : State) (key_expr val_expr : Expr)
       (rest : List (Expr × Expr)) (i : Interrupt),
      visit_expr fuel ctx σ key_expr = .intr i σ1 →
      visit_expr (fuel + 2) ctx σ (.Dictionary ((key_expr, val_expr) :: rest)) = .panic)
  ∧ (∀ (fuel : Nat) (ctx : LocalsMap) (σ σ1 σ2 : State) (key_expr val_expr : Expr)
       (rest : List (Expr × Expr)) (k : Literals) (i : Interrupt),
      visit_expr fuel ctx σ key_expr = .ok k σ1 →
      visit_expr fuel ctx σ1 val_expr = .intr i σ2 →
      visit_expr (fuel + 2) ctx σ (.Dictionary ((key_expr, val_expr) :: rest)) = .panic)
  ∧ (∀ (fuel : Nat) (ctx : LocalsMap) (σ σ1 : State) (op : Token) (e : Expr)
       (i : Interrupt),
      visit_expr fuel ctx σ e = .intr i σ1 →
      visit_expr (fuel + 1) ctx σ (.Unary op e) = .panic)
  ∧ (∀ (fuel : Nat) (ctx : LocalsMap) (σ σ1 : State) (cond : Expr) (body : Stmt)
       (i : Interrupt),
      visit_expr fuel ctx σ cond = .intr i σ1 →
      visit_stmt (fuel + 2) ctx σ (.While cond body) = .panic)
  ∧ (∀ (fuel : Nat) (ctx : LocalsMap) (σ σ1 : State) (e : Expr) (rest : List Expr)
       (i : Interrupt),
      visit_expr fuel ctx σ e = .intr i σ1 →
      visit_expr (fuel + 2) ctx σ (.Array (e :: rest)) = .intr i σ1) := by
  refine ⟨?_, ?_, ?_, ?_, ?_⟩
  · intro fuel ctx σ σ1 key_expr val_expr rest i h
    simp [visit_expr, evalPairs, EvalRes.bind, h]
  · intro fuel ctx σ σ1 σ2 key_expr val_expr rest k i hk hv
    simp [visit_expr, evalPairs, EvalRes.bind, hk, hv]
  · intro fuel ctx σ σ1 op e i h
    simp [visit_expr, h]
  · intro fuel ctx σ σ1 cond body i h
    simp [visit_stmt, while_loop, h]
  · intro fuel ctx σ σ1 e rest i h
    simp [visit_expr, evalArgs, EvalRes.bind, h]

/-- C10 witness: the theorem applied with an undefined-variable error in
each position — dictionary key, dictionary value, unary operand, while
condition (host panics), and array element (error propagates). -/
theorem unwrap_panics_in_dict_unary_while_witness :
    visit_expr 3 [] initState
      (.Dictionary [(.Variable ⟨.IDENTIFIER, "x", 1⟩, .Literal .Nil)]) = .panic
  ∧ visit_expr 3 [] initState
      (.Dictionary [(.Literal (.String "k"), .Variable ⟨.IDENTIFIER, "x", 1⟩)]) = .panic
  ∧ visit_expr 2 [] initState
      (.Unary ⟨.NOT, "not", 1⟩ (.Variable ⟨.IDENTIFIER, "x", 1⟩)) = .panic
  ∧ visit_stmt 3 [] initState
      (.While (.Variable ⟨.IDENTIFIER, "x", 1⟩) (.Block [])) = .panic
  ∧ visit_expr 3 [] initState
      (.Array [.Variable ⟨.IDENTIFIER, "x", 1⟩])
      = .intr (.Error ⟨.Token ⟨.IDENTIFIER, "x", 1⟩,
          "Variable 'x' not found in scope."⟩) initState :=
  ⟨unwrap_panics_in_dict_unary_while.1 1 [] initState initState
      (.Variable ⟨.IDENTIFIER, "x", 1⟩) (.Literal .Nil) []
      (.Error ⟨.Token ⟨.IDENTIFIER, "x", 1⟩, "Variable 'x' not found in scope."⟩) rfl,
   unwrap_panics_in_dict_unary_while.2.1 1 [] initState initState initState
      (.Literal (.String "k")) (.Variable ⟨.IDENTIFIER, "x", 1⟩) [] (.String "k")
      (.Error ⟨.Token ⟨.IDENTIFIER, "x", 1⟩, "Variable 'x' not found in scope."⟩) rfl rfl,
   unwrap_panics_in_dict_unary_while.2.2.1 1 [] initState initState
      ⟨.NOT, "not", 1⟩ (.Variable ⟨.IDENTIFIER, "x", 1⟩)
      (.Error ⟨.Token ⟨.IDENTIFIER, "x", 1⟩, "Variable 'x' not found in scope."⟩) rfl,
   unwrap_panics_in_dict_unary_while.2.2.2.1 1 [] initState initState
      (.Variable ⟨.IDENTIFIER, "x", 1⟩) (.Block [])
      (.Error ⟨.Token ⟨.IDENTIFIER, "x", 1⟩, "Variable 'x' not found in scope."⟩) rfl,
   unwrap_panics_in_dict_unary_while.2.2.2.2 1 [] initState initState
      (.Variable ⟨.IDENTIFIER, "x", 1⟩) []
      (.Error ⟨.Token ⟨.IDENTIFIER, "x", 1⟩, "Variable 'x' not found in scope."⟩) rfl⟩

end Dove
